import Mathlib

/-!
A shallow embedding of `rest_framework_drilldown/views.py` (the
`DrillDownAPIView` GET pipeline) together with proofs about its behaviour.

Conventions of the embedding:
* Django model metadata is embedded as an explicit `Schema`: a list of
  models, each a list of field declarations.  The field kinds mirror the
  four relation classes the source dispatches on (`ForeignKey`,
  `OneToOneField`, `ManyToManyField`, `RelatedObject`) plus plain scalar
  fields.
* Python's `s.split(sep, 1)` followed by recursion on the remainder is
  translated as structural recursion over the full segment list
  `pySplit s sep` (the two are extensionally equal ways of walking the
  same segments).
* Python's `s.strip('__')` / `s.strip('.')` strip a *character set*, so they
  are embedded as dropping leading/trailing `'_'` / `'.'` characters.
* Mutable view state (`self.error`, `self.select_relateds`,
  `self.prefetch_relateds`) is threaded explicitly through the compiler
  functions.
* The fields-map builder can recurse through `ALL` expansion and the
  implicit `id` defaulting, which is not structurally decreasing, so it
  takes a fuel parameter and returns `none` on fuel exhaustion.
-/

namespace Drilldown

/-!
#### Python string primitives

The embedding uses its own implementations of Python's `str.split`,
`str.replace`, `str.strip` and `int()`, written by structural recursion over
`List Char` so that every definition evaluates inside the kernel.  They
follow Python's semantics: `split` on a nonempty separator cuts at each
non-overlapping occurrence, left to right; `replace` substitutes each
non-overlapping occurrence; `strip` with no argument removes surrounding
whitespace, with a character argument removes every leading/trailing
character of that set.
-/

/-- Is `pre` a prefix of `l`? -/
def isPrefixL : List Char → List Char → Bool
  | [], _ => true
  | _ :: _, [] => false
  | a :: as, b :: bs => a = b && isPrefixL as bs

/-- Worker for `pySplit`; the fuel is always at least the list length plus
one, so the fallback first branch is never reached. -/
def splitGoF (sep : List Char) : Nat → List Char → List Char → List (List Char)
  | 0, l, cur => [cur.reverse ++ l]
  | _ + 1, [], cur => [cur.reverse]
  | f + 1, c :: rest, cur =>
    if isPrefixL sep (c :: rest) then
      cur.reverse :: splitGoF sep f (List.drop (sep.length - 1) rest) []
    else
      splitGoF sep f rest (c :: cur)

/-- Python `s.split(sep)` for a nonempty separator. -/
def pySplit (s sep : String) : List String :=
  if sep = "" then [s]
  else (splitGoF sep.toList (s.toList.length + 1) s.toList []).map String.mk

/-- Worker for `pyReplace`. -/
def replGoF (old new : List Char) : Nat → List Char → List Char
  | 0, l => l
  | _ + 1, [] => []
  | f + 1, c :: rest =>
    if isPrefixL old (c :: rest) then
      new ++ replGoF old new f (List.drop (old.length - 1) rest)
    else
      c :: replGoF old new f rest

/-- Python `s.replace(old, new)` for a nonempty `old`. -/
def pyReplace (s old new : String) : String :=
  if old = "" then s
  else String.mk (replGoF old.toList new.toList (s.toList.length + 1) s.toList)

/-- Python `s.strip()`: remove surrounding whitespace. -/
def pyStrip (s : String) : String :=
  String.mk
    (((s.toList.dropWhile Char.isWhitespace).reverse.dropWhile
      Char.isWhitespace).reverse)

/-- The numeric value of a decimal digit character (code points 48-57). -/
def digitVal (c : Char) : Option Nat :=
  if 48 ≤ c.toNat ∧ c.toNat ≤ 57 then some (c.toNat - 48) else none

/-- Accumulate a decimal digit string. -/
def digitsToNat : List Char → Nat → Option Nat
  | [], acc => some acc
  | c :: cs, acc => match digitVal c with
    | some d => digitsToNat cs (acc * 10 + d)
    | none => none

/-- Python `int(s)`: optional surrounding whitespace, optional sign, at
least one digit; `none` on anything else (`ValueError`). -/
def pyInt (s : String) : Option Int :=
  let l0 := s.toList.dropWhile Char.isWhitespace
  let l := (l0.reverse.dropWhile Char.isWhitespace).reverse
  match l with
  | '-' :: ds => if ds = [] then none else (digitsToNat ds 0).map (fun n => -(n : Int))
  | '+' :: ds => if ds = [] then none else (digitsToNat ds 0).map (fun n => (n : Int))
  | ds => if ds = [] then none else (digitsToNat ds 0).map (fun n => (n : Int))

/-- Python `s.strip('_')`/`s.strip('__')`: drop leading and trailing underscores. -/
def stripUs (s : String) : String :=
  String.mk (((s.toList.dropWhile (· = '_')).reverse.dropWhile (· = '_')).reverse)

/-- Python `s.strip('.')`: drop leading and trailing dots. -/
def stripDots (s : String) : String :=
  String.mk (((s.toList.dropWhile (· = '.')).reverse.dropWhile (· = '.')).reverse)

/-- Python `pat in s` (substring test), for nonempty `pat`. -/
def strContains (s pat : String) : Bool :=
  2 ≤ (pySplit s pat).length

/-- The relation field classes the source dispatches on, plus scalar fields. -/
inductive FieldType where
  | scalar
  | foreignKey
  | oneToOne
  | manyToMany
  | relatedObject
deriving DecidableEq, Repr

/-- One field of a Django model: its name, kind, and (for relation fields)
the related model's name. -/
structure FieldDecl where
  name : String
  ftype : FieldType
  target : Option String
deriving DecidableEq, Repr

/-- The process-wide model metadata (`model._meta` in the source). -/
structure Schema where
  models : List (String × List FieldDecl)
deriving Repr

/-- Field declarations of a model (empty for an unknown model name). -/
def fieldsOf (s : Schema) (m : String) : List FieldDecl :=
  (((s.models.find? (fun p => p.1 = m))).map (fun p => p.2)).getD []

/-- `model._meta.get_all_field_names()`. -/
def allFieldNames (s : Schema) (m : String) : List String :=
  (fieldsOf s m).map (fun d => d.name)

/-- `is_field_in` from the source: fieldname is a field or relatedobject of model. -/
def is_field_in (s : Schema) (m f : String) : Bool :=
  (allFieldNames s m).contains f

/-- `get_field_type` from the source (`none` when the field does not exist). -/
def get_field_type (s : Schema) (m f : String) : Option FieldType :=
  ((fieldsOf s m).find? (fun d => d.name = f)).map (fun d => d.ftype)

/-- `get_model` from the source: the related model of a FK/M2M/O2O/RelatedObject
field, `none` for scalar or missing fields. -/
def get_model (s : Schema) (m f : String) : Option String :=
  match (fieldsOf s m).find? (fun d => d.name = f) with
  | none => none
  | some d => match d.ftype with
    | .scalar => none
    | _ => d.target

/-- The accumulated traversal path: `(cur + '__' + fieldname).strip('__')`. -/
def accumPath (cur f : String) : String :=
  stripUs (cur ++ "__" ++ f)

/-! ### Drilldown validator (`_validate_drilldowns`) -/

/-- State of `_validate_drilldowns`: `self.error` and the accumulating
`validated_drilldowns` list. -/
structure DDState where
  error : String
  validated : List String
deriving Repr, DecidableEq

/-- `validate_me` from `_validate_drilldowns`, with the dotted string already
split on `'__'` into segments; walks the segments, appending every
accumulated prefix path to the validated list. -/
def validate_me (s : Schema) : String → List String → String → DDState → DDState
  | _, [], _, st => st
  | cm, seg :: rest, cur, st =>
    let fieldname := pyStrip seg
    if ¬ is_field_in s cm fieldname then
      { st with error := "Error in drilldowns: \x22" ++ fieldname ++
          "\x22 is not a valid field in " ++ cm ++ ". Remember __ not .)" }
    else
      match get_model s cm fieldname with
      | none =>
        { st with error := "Error in drilldowns: \x22" ++ fieldname ++
            "\x22 is not a ForeignKey, ManyToMany, OneToOne, or RelatedObject." }
      | some nm =>
        let cur' := accumPath cur fieldname
        let st' :=
          if cur' ∈ st.validated then st
          else { st with validated := st.validated ++ [cur'] }
        if rest ≠ [] then validate_me s nm rest cur' st' else st'

/-- `_validate_drilldowns`: fold `validate_me` over the declared paths and
reset the result to `[]` if any error was recorded.  Returns
`(self.error, validated_drilldowns)`. -/
def validate_drilldowns (s : Schema) (model : String) (dds : List String) :
    String × List String :=
  let st := dds.foldl (fun st dd => validate_me s model (pySplit dd "__") "" st)
    ⟨"", []⟩
  (st.error, if strContains st.error "Error in drilldowns" then [] else st.validated)

/-- Fold a fallible step over a list, propagating `none` (fuel exhaustion). -/
def foldOpt {σ α : Type} (f : σ → α → Option σ) : σ → List α → Option σ
  | st, [] => some st
  | st, a :: l => match f st a with
    | none => none
    | some st' => foldOpt f st' l

/-- Map a fallible function over a list, propagating `none`. -/
def mapOpt {α β : Type} (f : α → Option β) : List α → Option (List β)
  | [] => some []
  | a :: l => match f a with
    | none => none
    | some b => (mapOpt f l).map (fun bs => b :: bs)

/-! ### Fields-map compiler (`_create_fields_map`) -/

/-- The multi-level fields dictionary built by `_create_fields_map`
(a Python dict whose values are again such dicts). -/
inductive FMap where
  | node : List (String × FMap) → FMap
deriving Repr

/-- Entries of a fields map. -/
def FMap.entries : FMap → List (String × FMap)
  | .node es => es

/-- Top-level keys of a fields map. -/
def FMap.keys (m : FMap) : List String :=
  m.entries.map (fun p => p.1)

/-- Python `d.get(k)` on a fields map. -/
def FMap.get : FMap → String → Option FMap
  | .node es, k => (es.find? (fun p => p.1 = k)).map (fun p => p.2)

/-- Python `d[k] = v` on a fields map: replace the entry if the key exists,
append it otherwise. -/
def FMap.set : FMap → String → FMap → FMap
  | .node es, k, v =>
    .node (if es.any (fun p => p.1 = k)
      then es.map (fun p => if p.1 = k then (k, v) else p)
      else es ++ [(k, v)])

/-- The empty fields map (`{}`). -/
def FMap.empty : FMap := .node []

/-- The default sub-map `{'id': {}}` inserted for relation fields requested
without sub-fields. -/
def FMap.idOnly : FMap := .node [("id", .node [])]

/-- Mutable view state threaded through `_create_fields_map`:
`self.error`, `self.select_relateds`, `self.prefetch_relateds`. -/
structure FMState where
  error : String
  select_relateds : List String
  prefetch_relateds : List String
deriving Repr, DecidableEq

/-- Is the field type one of the four relation classes
(`ForeignKey, OneToOneField, RelatedObject, ManyToManyField`)? -/
def isRelType : Option FieldType → Bool
  | some .foreignKey | some .oneToOne | some .relatedObject | some .manyToMany => true
  | _ => false

/-- Is the field type one of the `select_related` classes
(`ForeignKey, OneToOneField, RelatedObject`)? -/
def isSelectType : Option FieldType → Bool
  | some .foreignKey | some .oneToOne | some .relatedObject => true
  | _ => false

/-- The non-`ALL` branch of `add_to_fields_map` ("add it to the map"):
record the field (with the `{'id': {}}` default for relation fields without
sub-fields), validate relation traversals against the drilldowns, and
collect `select_related`/`prefetch_related` paths.  The recursion into the
related model is abstracted as `recur`. -/
def addElse (s : Schema) (dds : List String)
    (recur : String → FMap → List String → String → FMState →
      Option (FMap × FMState))
    (cm : String) (map : FMap) (dot_string fieldname : String)
    (rest : List String) (current_related : String) (st : FMState) :
    Option (FMap × FMState) :=
  let there_are_subfields := rest ≠ []
  let map1 := if (map.get fieldname).isNone then map.set fieldname .empty else map
  let sub := (map1.get fieldname).getD .empty
  let new_model := get_model s cm fieldname
  let field_type := get_field_type s cm fieldname
  match new_model with
  | some nm =>
    if field_type = some .manyToMany ∨ there_are_subfields then
      let cr := accumPath current_related fieldname
      if cr ∈ dds then
        let st1 :=
          if isSelectType field_type then
            { st with select_relateds := st.select_relateds ++ [cr] }
          else
            { st with prefetch_relateds := st.prefetch_relateds ++ [cr] }
        if there_are_subfields then
          match recur nm sub rest cr st1 with
          | none => none
          | some (sub', st2) => some (map1.set fieldname sub', st2)
        else
          -- defaults to return the id only
          match recur nm sub (pySplit "id" ".") "" st1 with
          | none => none
          | some (sub', st2) => some (map1.set fieldname sub', st2)
      else
        some (map1, { st with error :=
          "Error in fields: " ++ pyReplace cr "__" "." ++ " is not valid" })
    else if there_are_subfields then
      -- requested a sub-field for a field that's not a model
      some (map1, { st with error :=
        "Error in fields: " ++ dot_string ++ " not valid field" })
    else
      some (map1, st)
  | none =>
    if there_are_subfields then
      some (map1, { st with error :=
        "Error in fields: " ++ dot_string ++ " not valid field" })
    else
      some (map1, st)

/-- One name of the `ALL` expansion loop (`for fname in
model._meta.get_all_field_names()`): skip it when its dotted name is
hidden, skip it silently when it is a disallowed `ManyToManyField`,
otherwise add it as if individually requested; the recursion is abstracted
as `recur`. -/
def allStep (s : Schema) (dds hide_fields : List String)
    (recur : String → FMap → List String → String → FMState →
      Option (FMap × FMState))
    (cm current_related : String)
    (acc : FMap × FMState) (fname : String) : Option (FMap × FMState) :=
  let fnamePref := pyReplace current_related "__" "." ++ "."
  if stripDots (fnamePref ++ fname) ∈ hide_fields then
    pure acc  -- skip it
  else if get_field_type s cm fname = some .manyToMany ∧
      accumPath current_related fname ∉ dds then
    pure acc  -- don't add this one
  else
    recur cm acc.1 (pySplit fname ".") current_related acc.2

/-- `add_to_fields_map` from `_create_fields_map`.  The requested dotted
string is carried as its list of `'.'`-separated segments; `dds` is the
validated drilldown set, `hide_fields` the dotted hidden-field names.
Needs fuel because the `ALL` expansion and the implicit `id` defaulting
recurse on freshly built segment lists; `none` means fuel ran out. -/
def add_to_fields_map (s : Schema) (dds hide_fields : List String) :
    Nat → String → FMap → List String → String → FMState → Option (FMap × FMState)
  | 0, _, _, _, _, _ => none
  | fuel + 1, cm, map, segs, current_related, st =>
    let dot_string := String.intercalate "." segs
    let fieldname := pyStrip (segs.headD "")
    let rest := segs.tail
    if ¬ (fieldname = "ALL" ∨ is_field_in s cm fieldname) then
      some (map, { st with error :=
        "Error in fields: \x22" ++ dot_string ++ "\x22 is not a valid field" })
    else if fieldname = "ALL" then
      -- add in all the fields for the model
      foldOpt (allStep s dds hide_fields (add_to_fields_map s dds hide_fields
          fuel) cm current_related)
        (map, st) (allFieldNames s cm)
    else
      -- add it to the map
      addElse s dds (add_to_fields_map s dds hide_fields fuel) cm map
        dot_string fieldname rest current_related st

/-- `_create_fields_map`: fold `add_to_fields_map` over the requested field
strings, starting from an empty map and clean state; reset the map to `{}`
if any fields error was recorded. -/
def create_fields_map (s : Schema) (dds hide_fields : List String) (fuel : Nat)
    (model : String) (fields : List String) : Option (FMap × FMState) :=
  (foldOpt (fun (acc : FMap × FMState) f =>
      add_to_fields_map s dds hide_fields fuel model acc.1 (pySplit f ".") ""
        acc.2)
    (FMap.empty, ⟨"", [], []⟩) fields).map
    (fun p => (if strContains p.2.error "Error in fields" then FMap.empty else p.1,
      p.2))

/-- Python `d[k] = v` on an association list: replace the entry if the key
exists, append it otherwise. -/
def assocSet {β : Type} (l : List (String × β)) (k : String) (v : β) :
    List (String × β) :=
  if l.any (fun p => p.1 = k) then
    l.map (fun p => if p.1 = k then (k, v) else p)
  else
    l ++ [(k, v)]

/-! ### Filter compiler (`_set_filter_kwargs`) -/

/-- A filter value after the `'true'/'True'/'false'/'False'` coercion. -/
inductive FilterVal where
  | b : Bool → FilterVal
  | s : String → FilterVal
deriving DecidableEq, Repr

/-- The boolean-literal coercion performed at the end of `_set_filter_kwargs`. -/
def coerceBool (v : String) : FilterVal :=
  if v = "true" ∨ v = "True" then .b true
  else if v = "false" ∨ v = "False" then .b false
  else .s v

/-- `do_filter` from `_set_filter_kwargs`: walk the dotted path (carried as
its `'.'`-segments), validating every non-terminal hop against the
drilldowns; returns the `'__'`-joined filter string or the error message. -/
def do_filter (s : Schema) (dds : List String) :
    List String → String → String → Except String String
  | [], filter_string, _ => .ok filter_string
  | seg :: rest, filter_string, cm =>
    let fieldname := seg
    let fs' := accumPath filter_string fieldname
    if ¬ is_field_in s cm fieldname then
      .error ("\x22" ++ fieldname ++ "\x22 is not a valid filter")
    else if rest ≠ [] then
      let field_type := get_field_type s cm fieldname
      if fs' ∉ dds then
        .error ("Error in filters: " ++ pyReplace fs' "__" ".")
      else if ¬ isRelType field_type then
        .error ("Error: " ++ fs' ++ " has no children")
      else
        -- go to the related model
        do_filter s dds rest fs' ((get_model s cm fieldname).getD "")
    else
      .ok fs'

/-- The per-parameter step of `_set_filter_kwargs`: split the key on `'__'`
(first component = dotted path, second = operator suffix), validate the
path with `do_filter`, and record the kwarg or the error. -/
def filterStep (s : Schema) (dds : List String) (model : String)
    (acc : List (String × String) × String) (pv : String × String) :
    List (String × String) × String :=
  let pair := pySplit pv.1 "__"
  let dot_string := pair.headD ""
  let operation := match pair with
    | _ :: op :: _ => "__" ++ op
    | _ => ""
  match do_filter s dds (pySplit dot_string ".") "" model with
  | .error e => (acc.1, e)
  | .ok filter_string =>
    (acc.1 ++ [(filter_string ++ operation, pv.2)], acc.2)

/-- `_set_filter_kwargs`: fold `filterStep` over the filter parameters and
finally coerce boolean literals.  Returns `(filter_kwargs, self.error)`. -/
def set_filter_kwargs (s : Schema) (dds : List String) (model : String)
    (filters : List (String × String)) : List (String × FilterVal) × String :=
  let res := filters.foldl (filterStep s dds model) ([], "")
  (res.1.foldl (fun kw p => assocSet kw p.1 (coerceBool p.2)) [], res.2)

/-! ### Pagination and total count (lines 139-164 of `get`) -/

/-- `int_or_none`: `none` when `int(value)` fails (or the parameter is absent). -/
def int_or_none (value : Option String) : Option Int :=
  value.bind (fun v => pyInt v)

/-- Line 140: `self.offset = int_or_none(...) or 0`. -/
def computeOffset (offsetParam : Option String) : Int :=
  (int_or_none offsetParam).getD 0

/-- Lines 141-142: parse the limit parameter and clamp it with the
per-endpoint `THROTTLE` (when set) and the `GLOBAL_THROTTLE` of 2000. -/
def computeLimit (throttle : Option Int) (limitParam : Option String) : Int :=
  let l0 := (int_or_none limitParam).getD 0
  min (throttle.getD 2000) (if l0 = 0 then 2000 else l0)

/-- Lines 143-148: the offset/limit slicing applied to the query
(Python truthiness: a slice bound participates only when nonzero). -/
def sliceRows {α : Type} (rows : List α) (offset limit : Int) : List α :=
  if limit ≠ 0 ∧ offset ≠ 0 then (rows.drop offset.toNat).take limit.toNat
  else if limit ≠ 0 then rows.take limit.toNat
  else if offset ≠ 0 then rows.drop offset.toNat
  else rows

/-- Lines 159-163: the `X-Total-Count` value; a separate count query (the
length of the filtered-but-unpaginated row list) is used only when an
offset was supplied or the page is full, otherwise the page length. -/
def countTotal (dataLen : Nat) (matchingLen : Nat) (offset limit : Int) : Int :=
  if offset ≠ 0 ∨ (dataLen ≠ 0 ∧ (dataLen : Int) = limit) then matchingLen
  else dataLen

/-! ### Result rows and output records

A result row is a root entity instance together with its loaded relation
graph; the serializer built by `DrilldownSerializerFactory` turns it into an
output record.  The rendering of the fields the factory leaves untouched
(scalars, and relation fields without a nested sub-serializer) follows the
ModelSerializer defaults of the REST framework, an external collaborator:
scalar fields render their value, to-one relations render the related
primary key (or null), to-many relations render the flat list of related
primary keys, and reverse `RelatedObject` fields are not among the default
fields (spec section 4.5 and the repository's own tests pin this behaviour).
-/

/-- A primitive field value. -/
inductive Value where
  | int : Int → Value
  | str : String → Value
  | bool : Bool → Value
  | null : Value
deriving DecidableEq, Repr

mutual
/-- The content of one field of a loaded row. -/
inductive Cell where
  | scalar : Value → Cell
  | one : Option Row → Cell
  | many : List Row → Cell
/-- A loaded entity instance: field name to cell. -/
inductive Row where
  | mk : List (String × Cell) → Row
end

/-- Field access on a loaded row. -/
def rowLookup : Row → String → Option Cell
  | .mk cs, f => (cs.find? (fun p => p.1 = f)).map (fun p => p.2)

/-- A value of an output record. -/
inductive OutVal where
  | prim : Value → OutVal
  | null : OutVal
  | idList : List Value → OutVal
  | record : List (String × OutVal) → OutVal
  | recordList : List (List (String × OutVal)) → OutVal

/-- An output record: field name to output value. -/
abbrev OutRec := List (String × OutVal)

/-- The default serializer fields of a model: every declared field except
reverse `RelatedObject`s (ModelSerializer default, see section header). -/
def defaultFields (s : Schema) (m : String) : List String :=
  ((fieldsOf s m).filter (fun d => d.ftype ≠ .relatedObject)).map (fun d => d.name)

/-- The primary key of a row (its `id` field). -/
def idOf (r : Row) : Value :=
  match rowLookup r "id" with
  | some (.scalar v) => v
  | _ => .null

/-- Default rendering of a kept serializer field (no nested sub-serializer):
scalar value, related pk, or flat list of related pks. -/
def renderDefault (s : Schema) (m f : String) (row : Row) : OutVal :=
  match get_field_type s m f with
  | some .manyToMany =>
    match rowLookup row f with
    | some (.many rs) => .idList (rs.map idOf)
    | _ => .idList []
  | some .foreignKey | some .oneToOne =>
    match rowLookup row f with
    | some (.one (some r)) => .prim (idOf r)
    | _ => .null
  | _ =>
    match rowLookup row f with
    | some (.scalar v) => .prim v
    | _ => .null

/-- `{}`? -/
def FMap.isEmptyMap : FMap → Bool
  | .node [] => true
  | _ => false

/-- Exactly the default `{'id': {}}`? -/
def FMap.isIdOnly : FMap → Bool
  | .node [(k, sub)] => k = "id" && sub.isEmptyMap
  | _ => false

/-- One entry of the prune loop (`for field_name in fields_map`): attach a
recursively built sub-serializer for relation fields whose sub-map is
neither `{}` nor `{'id': {}}`; the recursion is abstracted as `recur`. -/
def pruneStep (s : Schema) (model : String)
    (recur : String → FMap → Row → Option OutRec) (row : Row)
    (out : OutRec) (p : String × FMap) : Option OutRec :=
  if !p.2.isEmptyMap && !p.2.isIdOnly &&
      isRelType (get_field_type s model p.1) then
    let nm := (get_model s model p.1).getD ""
    match rowLookup row p.1 with
    | some (.one (some r)) =>
      (recur nm p.2 r).map (fun rc => assocSet out p.1 (.record rc))
    | some (.one none) => some (assocSet out p.1 .null)
    | some (.many rs) =>
      (mapOpt (recur nm p.2) rs).map
        (fun rcs => assocSet out p.1 (.recordList rcs))
    | _ => some (assocSet out p.1 .null)
  else
    some out

/-- The serializer produced by `DrilldownSerializerFactory`, applied to one
row: with an empty fields map only `id` survives; otherwise default fields
are pruned to the requested keys and relation fields with a non-trivial
sub-map (not `{}` and not `{'id': {}}`) are replaced by a recursively built
sub-serializer. -/
def pruneRow (s : Schema) : Nat → String → FMap → Row → Option OutRec
  | 0, _, _, _ => none
  | fuel + 1, model, fm, row =>
    if fm.isEmptyMap then
      -- if no fields specified, return ids only
      some (((defaultFields s model).filter (fun f => f = "id")).map
        (fun f => (f, renderDefault s model f row)))
    else
      let base := ((defaultFields s model).filter (fun f => f ∈ fm.keys)).map
        (fun f => (f, renderDefault s model f row))
      foldOpt (pruneStep s model (pruneRow s fuel) row) base fm.entries

/-- `serializer.data` for the whole sliced query set. -/
def serializeRows (s : Schema) (fuel : Nat) (model : String) (fm : FMap)
    (rows : List Row) : Option (List OutRec) :=
  mapOpt (pruneRow s fuel model fm) rows

/-! ### The GET pipeline (`DrillDownAPIView.get`) -/

/-- Static per-endpoint configuration of a `DrillDownAPIView` subclass. -/
structure Config where
  model : String
  drilldowns : List String
  ignore : List String
  hide : List String
  throttle : Option Int
deriving Repr

/-- The response assembled by `get`: status, body, and the
`X-Total-Count` / `X-Query_Error` headers. -/
structure GetResponse where
  status : Nat
  data : List OutRec
  xTotalCount : Option Int
  xQueryError : Option String

/-- `self.hide_fields`: hide entries with `'__'` replaced by `'.'`. -/
def hideFieldsOf (cfg : Config) : List String :=
  cfg.hide.map (fun h => pyReplace h "__" ".")

/-- `self.ignore_fields`: reserved parameter names, the ignore list, and the
hidden dotted names. -/
def ignoreFieldsOf (cfg : Config) : List String :=
  ["fields", "limit", "offset", "format", "order_by"] ++ cfg.ignore ++ hideFieldsOf cfg

/-- Python `request.QUERY_PARAMS.get(k)`. -/
def lookupParam (params : List (String × String)) (k : String) : Option String :=
  (params.find? (fun p => p.1 = k)).map (fun p => p.2)

/-- The request parameters used as filters: everything whose part before the
first `'__'` is not an ignore field. -/
def requestFilters (cfg : Config) (params : List (String × String)) :
    List (String × String) :=
  params.filter (fun p => ((pySplit p.1 "__").headD "") ∉ ignoreFieldsOf cfg)

/-- The `fields` parameter as a list (comma-split; empty string is falsy). -/
def requestFields (params : List (String × String)) : List String :=
  match lookupParam params "fields" with
  | none => []
  | some f => if f = "" then [] else pySplit f ","

/-- The GET pipeline of `DrillDownAPIView.get`, with the storage engine
abstracted: `baseRows` is the base query (`none` when `get_base_query`
returns `None`) and `engine` maps the base rows and the compiled filter
kwargs to the matching rows, in order (the `order_by` handling is treated
as part of the engine).  The engine is consulted only on the success path,
after every validation stage has passed.  `none` means fuel ran out in the
fields-map compiler or the serializer. -/
def runGet (s : Schema) (cfg : Config) (params : List (String × String))
    (baseRows : Option (List Row))
    (engine : List Row → List (String × FilterVal) → List Row)
    (fuel : Nat) : Option GetResponse :=
  match baseRows with
  | none => some ⟨400, [], none, some "API error: get_base_query() missing or invalid"⟩
  | some rows0 =>
    let dd := validate_drilldowns s cfg.model cfg.drilldowns
    if dd.1 ≠ "" then some ⟨400, [], none, some dd.1⟩
    else
      match create_fields_map s dd.2 (hideFieldsOf cfg) fuel cfg.model
          (requestFields params) with
      | none => none
      | some (fm, fst) =>
        if fst.error ≠ "" then some ⟨400, [], none, some fst.error⟩
        else
          let fk := set_filter_kwargs s dd.2 cfg.model (requestFilters cfg params)
          if fk.2 ≠ "" then some ⟨400, [], none, some fk.2⟩
          else
            let matching := engine rows0 fk.1
            let offset := computeOffset (lookupParam params "offset")
            let limit := computeLimit cfg.throttle (lookupParam params "limit")
            let sliced := sliceRows matching offset limit
            match serializeRows s fuel cfg.model fm sliced with
            | none => none
            | some data =>
              some ⟨200, data,
                some (countTotal data.length matching.length offset limit), none⟩

/-! ### The schema and endpoint of the repository's test suite

`tests.py` declares five models and one endpoint
(`DrilldownTestAPI`); they serve as concrete instances for witnesses and
counterexamples.  Reverse relations appear with their related query names,
as `model._meta.get_all_field_names()` reports them, typed `relatedObject`;
the automatic `id` primary keys are listed as scalars. -/

/-- The five models of `tests.py`. -/
def testSchema : Schema :=
  ⟨[("test_Profile",
      [⟨"id", .scalar, none⟩,
       ⟨"first_name", .scalar, none⟩,
       ⟨"last_name", .scalar, none⟩,
       ⟨"spy_name", .scalar, none⟩,
       ⟨"test_client", .relatedObject, some "test_Client"⟩,
       ⟨"test_salesperson", .relatedObject, some "test_Salesperson"⟩]),
    ("test_Client",
      [⟨"id", .scalar, none⟩,
       ⟨"wholesale", .scalar, none⟩,
       ⟨"profile", .foreignKey, some "test_Profile"⟩,
       ⟨"test_invoice", .relatedObject, some "test_Invoice"⟩]),
    ("test_Salesperson",
      [⟨"id", .scalar, none⟩,
       ⟨"commission_pct", .scalar, none⟩,
       ⟨"profile", .foreignKey, some "test_Profile"⟩,
       ⟨"test_invoice", .relatedObject, some "test_Invoice"⟩]),
    ("test_Item",
      [⟨"id", .scalar, none⟩,
       ⟨"description", .scalar, none⟩,
       ⟨"price", .scalar, none⟩,
       ⟨"invoice", .relatedObject, some "test_Invoice"⟩]),
    ("test_Invoice",
      [⟨"id", .scalar, none⟩,
       ⟨"client", .foreignKey, some "test_Client"⟩,
       ⟨"salesperson", .foreignKey, some "test_Salesperson"⟩,
       ⟨"items", .manyToMany, some "test_Item"⟩,
       ⟨"total", .scalar, none⟩])]⟩

/-- The `DrilldownTestAPI` endpoint configuration from `tests.py`. -/
def testConfig : Config :=
  ⟨"test_Invoice",
   ["client__profile", "salesperson__profile", "items"],
   ["fakefield"],
   ["salesperson__commission_pct"],
   none⟩

/-- A loaded invoice row (invoice 1 of the test fixtures, truncated to two
items), with its relation graph. -/
def testRow : Row :=
  .mk [("id", .scalar (.int 1)),
       ("client", .one (some (.mk
         [("id", .scalar (.int 1)),
          ("wholesale", .scalar (.bool true)),
          ("profile", .one (some (.mk
            [("id", .scalar (.int 1)),
             ("first_name", .scalar (.str "Mary")),
             ("last_name", .scalar (.str "Smith")),
             ("spy_name", .scalar (.str "Mango"))])))]))),
       ("salesperson", .one (some (.mk
         [("id", .scalar (.int 1)),
          ("commission_pct", .scalar (.int 8)),
          ("profile", .one (some (.mk
            [("id", .scalar (.int 4)),
             ("first_name", .scalar (.str "Ann")),
             ("last_name", .scalar (.str "Ames")),
             ("spy_name", .scalar (.str "Pegleg"))])))]))),
       ("items", .many
         [.mk [("id", .scalar (.int 1)),
               ("description", .scalar (.str "Tape")),
               ("price", .scalar (.str "2.20"))],
          .mk [("id", .scalar (.int 2)),
               ("description", .scalar (.str "Dog bowl")),
               ("price", .scalar (.str "4.00"))]]),
       ("total", .scalar (.str "6.20"))]

/-- The canonical path of a walked segment list: the fold of
`accumPath` over the stripped segments. -/
def prefixPath (cur : String) (segs : List String) : String :=
  segs.foldl (fun c f => accumPath c (pyStrip f)) cur

/-- A row carrying only an `id`. -/
def idRow (i : Int) : Row := .mk [("id", Cell.scalar (.int i))]

/-- Five matching rows, as in the pagination tests. -/
def fiveRows : List Row := [idRow 1, idRow 2, idRow 3, idRow 4, idRow 5]

/-- An engine that returns every base row (no filters in play). -/
def engAll : List Row → List (String × FilterVal) → List Row := fun rows _ => rows

/-- Well-formedness of one field declaration. -/
def wfField (s : Schema) (d : FieldDecl) : Bool :=
  pySplit d.name "." = [d.name] && pyStrip d.name = d.name && d.name ≠ "ALL" &&
  (match d.ftype with
   | .scalar => true
   | _ => match d.target with
     | some tm => (s.models.map (fun p => p.1)).contains tm
     | none => false)

/-- Well-formedness of a schema. -/
def wfSchema (s : Schema) : Bool :=
  s.models.all (fun p =>
    decide ((p.2.map (fun d => d.name)).Nodup) &&
    is_field_in s p.1 "id" &&
    (get_field_type s p.1 "id" = some .scalar) &&
    p.2.all (fun d => wfField s d))

/-- The `if absent then insert` idiom of `_create_fields_map`
(`if current_map.get(fieldname) is None: current_map[fieldname] = {}`). -/
def insertAbsent (m : FMap) (n : String) : FMap :=
  if (m.get n).isNone then m.set n FMap.empty else m

/-! ## Verification

General lemmas about the embedded components, followed by one theorem per
claim (with witnesses and counterexamples where applicable). -/

/-- A string with a nonempty left part of an append is nonempty. -/
theorem append_ne_empty_left {a : String} (ha : a ≠ "") (b : String) :
    a ++ b ≠ "" := by
  intro h
  apply ha
  have hd : a.data ++ b.data = [] := by
    have hc := congrArg String.data h
    rwa [String.data_append] at hc
  exact String.ext (List.append_eq_nil.mp hd).1

/-- Three appended strings with a nonempty head are nonempty. -/
theorem append3_ne (a b c : String) (ha : a ≠ "") : a ++ b ++ c ≠ "" :=
  append_ne_empty_left (append_ne_empty_left ha b) c

/-- Five appended strings with a nonempty head are nonempty. -/
theorem append5_ne (a b c d e : String) (ha : a ≠ "") :
    a ++ b ++ c ++ d ++ e ≠ "" :=
  append_ne_empty_left (append_ne_empty_left
    (append_ne_empty_left (append_ne_empty_left ha b) c) d) e

/-- Unfolding equation of `validate_me` on an invalid field name. -/
theorem validate_me_cons_err1 (s : Schema) (seg : String) (rest : List String)
    (cm cur : String) (st : DDState)
    (hf : ¬ (is_field_in s cm (pyStrip seg) = true)) :
    validate_me s cm (seg :: rest) cur st =
      { st with error := "Error in drilldowns: \x22" ++ pyStrip seg ++
          "\x22 is not a valid field in " ++ cm ++ ". Remember __ not .)" } := by
  simp only [validate_me]
  rw [if_pos hf]

/-- Unfolding equation of `validate_me` on a non-relation field. -/
theorem validate_me_cons_err2 (s : Schema) (seg : String) (rest : List String)
    (cm cur : String) (st : DDState)
    (hf : is_field_in s cm (pyStrip seg) = true)
    (hgm : get_model s cm (pyStrip seg) = none) :
    validate_me s cm (seg :: rest) cur st =
      { st with error := "Error in drilldowns: \x22" ++ pyStrip seg ++
          "\x22 is not a ForeignKey, ManyToMany, OneToOne, or RelatedObject." } := by
  simp only [validate_me, hgm]
  rw [if_neg (not_not_intro hf)]

/-- Unfolding equation of `validate_me` on a successful relation hop. -/
theorem validate_me_cons_eq (s : Schema) (seg : String) (rest : List String)
    (cm cur : String) (st : DDState) (nm : String)
    (hf : is_field_in s cm (pyStrip seg) = true)
    (hgm : get_model s cm (pyStrip seg) = some nm) :
    validate_me s cm (seg :: rest) cur st =
      (if rest ≠ [] then
        validate_me s nm rest (accumPath cur (pyStrip seg))
          (if accumPath cur (pyStrip seg) ∈ st.validated then st
           else { st with validated := st.validated ++ [accumPath cur (pyStrip seg)] })
      else
        (if accumPath cur (pyStrip seg) ∈ st.validated then st
         else { st with validated := st.validated ++ [accumPath cur (pyStrip seg)] })) := by
  simp only [validate_me, hgm]
  rw [if_neg (not_not_intro hf)]

/-- `validate_me` never removes a member of the validated list. -/
theorem validate_me_mono (s : Schema) (segs : List String) :
    ∀ (cm cur x : String) (st : DDState), x ∈ st.validated →
      x ∈ (validate_me s cm segs cur st).validated := by
  induction segs with
  | nil => intro cm cur x st hx; simpa [validate_me] using hx
  | cons seg rest ih =>
    intro cm cur x st hx
    by_cases hf : is_field_in s cm (pyStrip seg) = true
    · cases hgm : get_model s cm (pyStrip seg) with
      | none => rw [validate_me_cons_err2 s seg rest cm cur st hf hgm]; exact hx
      | some nm =>
        rw [validate_me_cons_eq s seg rest cm cur st nm hf hgm]
        have hx' : x ∈ (if accumPath cur (pyStrip seg) ∈ st.validated then st
            else { st with validated :=
              st.validated ++ [accumPath cur (pyStrip seg)] }).validated := by
          split
          · exact hx
          · simpa using Or.inl hx
        split
        · exact ih _ _ _ _ hx'
        · exact hx'
    · rw [validate_me_cons_err1 s seg rest cm cur st hf]; exact hx

/-- If `validate_me` finishes with an empty error, the error it started from
was empty. -/
theorem validate_me_error (s : Schema) (segs : List String) :
    ∀ (cm cur : String) (st : DDState),
      (validate_me s cm segs cur st).error = "" → st.error = "" := by
  induction segs with
  | nil => intro cm cur st h; simpa [validate_me] using h
  | cons seg rest ih =>
    intro cm cur st h
    by_cases hf : is_field_in s cm (pyStrip seg) = true
    · cases hgm : get_model s cm (pyStrip seg) with
      | none =>
        rw [validate_me_cons_err2 s seg rest cm cur st hf hgm] at h
        exact absurd h (append3_ne _ _ _ (by decide))
      | some nm =>
        rw [validate_me_cons_eq s seg rest cm cur st nm hf hgm] at h
        split at h
        · have h' := ih _ _ _ h
          split at h' <;> simpa using h'
        · split at h <;> simpa using h
    · rw [validate_me_cons_err1 s seg rest cm cur st hf] at h
      exact absurd h (append5_ne _ _ _ _ _ (by decide))

/-- When `validate_me` succeeds, the canonical path of every nonempty prefix
of its segment list is in the resulting validated list. -/
theorem validate_me_prefixes (s : Schema) (segs : List String) :
    ∀ (cm cur : String) (st : DDState),
      (validate_me s cm segs cur st).error = "" →
      ∀ k, 1 ≤ k → k ≤ segs.length →
        prefixPath cur (segs.take k) ∈ (validate_me s cm segs cur st).validated := by
  induction segs with
  | nil => intro cm cur st _ k hk1 hk2; simp at hk2; omega
  | cons seg rest ih =>
    intro cm cur st h k hk1 hk2
    by_cases hf : is_field_in s cm (pyStrip seg) = true
    · cases hgm : get_model s cm (pyStrip seg) with
      | none =>
        rw [validate_me_cons_err2 s seg rest cm cur st hf hgm] at h
        exact absurd h (append3_ne _ _ _ (by decide))
      | some nm =>
        rw [validate_me_cons_eq s seg rest cm cur st nm hf hgm] at h ⊢
        have hmem' : accumPath cur (pyStrip seg) ∈
            (if accumPath cur (pyStrip seg) ∈ st.validated then st
             else { st with validated :=
               st.validated ++ [accumPath cur (pyStrip seg)] }).validated := by
          split
          · assumption
          · simp
        by_cases hrest : rest = []
        · subst hrest
          rw [if_neg (by simp)] at h ⊢
          simp only [List.length_cons, List.length_nil] at hk2
          have hk : k = 1 := by omega
          subst hk
          simpa [prefixPath] using hmem'
        · rw [if_pos hrest] at h ⊢
          match k, hk1 with
          | 1, _ =>
            simp only [List.take_succ_cons, List.take_zero, prefixPath,
              List.foldl_cons, List.foldl_nil]
            exact validate_me_mono s rest nm _ _ _ hmem'
          | (j + 2), _ =>
            have hlen : j + 1 ≤ rest.length := by
              simp only [List.length_cons] at hk2; omega
            have := ih nm (accumPath cur (pyStrip seg)) _ h (j + 1) (by omega) hlen
            simpa [prefixPath, List.take_succ_cons, List.foldl_cons] using this
    · rw [validate_me_cons_err1 s seg rest cm cur st hf] at h
      exact absurd h (append5_ne _ _ _ _ _ (by decide))

/-- Folding `validate_me` over declared paths preserves membership of the
validated list. -/
theorem fold_vd_mono (s : Schema) (model : String) (l : List String) :
    ∀ (st : DDState) (x : String), x ∈ st.validated →
      x ∈ (l.foldl (fun st dd => validate_me s model (pySplit dd "__") "" st)
        st).validated := by
  induction l with
  | nil => intro st x hx; simpa using hx
  | cons d ds ih =>
    intro st x hx
    exact ih _ _ (validate_me_mono s _ _ _ _ _ hx)

/-- If the fold of `validate_me` over declared paths ends with an empty
error, it started with an empty error. -/
theorem fold_vd_error (s : Schema) (model : String) (l : List String) :
    ∀ (st : DDState),
      (l.foldl (fun st dd => validate_me s model (pySplit dd "__") "" st)
        st).error = "" → st.error = "" := by
  induction l with
  | nil => intro st h; simpa using h
  | cons d ds ih =>
    intro st h
    exact validate_me_error s _ _ _ _ (ih _ h)

/-- C3: for every declared drilldown path list accepted without error, the
canonical validated set contains the canonical path of every non-empty
strict prefix (segment-wise) of every declared path: the set is
prefix-closed, with missing intermediate paths synthesized. -/
theorem C3_drilldown_prefix_closure (s : Schema) (model : String)
    (dds : List String) (h : (validate_drilldowns s model dds).1 = "") :
    ∀ dd ∈ dds, ∀ k, 1 ≤ k → k < (pySplit dd "__").length →
      prefixPath "" ((pySplit dd "__").take k) ∈
        (validate_drilldowns s model dds).2 := by
  intro dd hdd k hk1 hk2
  simp only [validate_drilldowns] at h ⊢
  set step := fun (st : DDState) (dd : String) =>
    validate_me s model (pySplit dd "__") "" st with hstep
  have hmem : ∀ (st : DDState), (dds.foldl step st).error = "" → dd ∈ dds →
      prefixPath "" ((pySplit dd "__").take k) ∈ (dds.foldl step st).validated := by
    clear hdd h
    induction dds with
    | nil => intro st _ hmem; cases hmem
    | cons d ds ih =>
      intro st herr hmem
      rcases List.mem_cons.mp hmem with rfl | hmem'
      · simp only [List.foldl_cons]
        apply fold_vd_mono
        have herr1 : (step st dd).error = "" :=
          fold_vd_error s model ds _ (by simpa using herr)
        exact validate_me_prefixes s _ _ _ _ herr1 k hk1 (by omega)
      · exact ih _ (by simpa using herr) hmem'
  have herr0 : (dds.foldl step ⟨"", []⟩).error = "" := h
  have := hmem ⟨"", []⟩ herr0 hdd
  rw [herr0]
  have hfalse : strContains "" "Error in drilldowns" = false := by decide
  simp only [hfalse, Bool.false_eq_true, if_false]
  exact this

/-- Witness for C3 on the endpoint configuration of the repository's test
suite: the declared list validates cleanly, and the strict prefix `client`
of the declared path `client__profile` is in the canonical set. -/
theorem C3_witness :
    (validate_drilldowns testSchema "test_Invoice" testConfig.drilldowns).1 = "" ∧
    prefixPath "" ((pySplit "client__profile" "__").take 1) ∈
      (validate_drilldowns testSchema "test_Invoice" testConfig.drilldowns).2 :=
  ⟨by decide,
    C3_drilldown_prefix_closure testSchema "test_Invoice" testConfig.drilldowns
      (by decide) "client__profile" (by decide) 1 (by decide) (by decide)⟩

/-! ### Pagination claims (C4, C5, C10) -/

/-- When the computed limit is nonzero, the slice never exceeds it. -/
theorem sliceRows_length_le {α : Type} (rows : List α) (o L : Int) (hL : L ≠ 0) :
    (sliceRows rows o L).length ≤ L.toNat := by
  by_cases ho : o = 0
  · subst ho
    simp only [sliceRows]
    rw [if_neg (by simp)]
    rw [if_pos hL]
    simp only [List.length_take]
    omega
  · simp only [sliceRows]
    rw [if_pos ⟨hL, ho⟩]
    simp only [List.length_take]
    omega

/-- C4 counterexample: with 2002 matching rows, `offset=1` and no limit
parameter (no per-endpoint throttle), the executed slice is not the full
tail `[1, ∞)` — the global throttle caps it at 2000 rows. -/
theorem C4_counterexample :
    sliceRows (List.replicate 2002 (Row.mk [])) (computeOffset (some "1"))
        (computeLimit none none) ≠
      (List.replicate 2002 (Row.mk [])).drop
        (computeOffset (some "1")).toNat := by
  have hoff : computeOffset (some "1") = 1 := by decide
  have hlim : computeLimit none none = 2000 := by decide
  rw [hoff, hlim]
  intro h
  have hslice : sliceRows (List.replicate 2002 (Row.mk [])) 1 2000 =
      ((List.replicate 2002 (Row.mk [])).drop (1 : Int).toNat).take
        (2000 : Int).toNat := by
    simp only [sliceRows]
    rw [if_pos ⟨by decide, by decide⟩]
  rw [hslice] at h
  have hlen := congrArg List.length h
  simp only [List.length_take, List.length_drop, List.length_replicate] at hlen
  omega

/-- C4 amended: a request with a valid positive offset and no limit
parameter (and no per-endpoint throttle) executes the slice
`[offset, offset + 2000)` — all remaining rows only when at most 2000
remain. -/
theorem C4_amended {α : Type} (rows : List α) (offsetParam : Option String)
    (o : Int) (hp : int_or_none offsetParam = some o) (ho : 0 < o) :
    sliceRows rows (computeOffset offsetParam) (computeLimit none none) =
      (rows.drop o.toNat).take 2000 := by
  have hoo : computeOffset offsetParam = o := by simp [computeOffset, hp]
  have hlim : computeLimit none none = 2000 := by decide
  rw [hoo, hlim]
  simp only [sliceRows]
  rw [if_pos ⟨by decide, by omega⟩]
  rfl

/-- Witness for C4's amended statement: `offset=3` over 5 rows. -/
theorem C4_witness :
    int_or_none (some "3") = some 3 ∧ (0 : Int) < 3 ∧
    sliceRows (List.replicate 5 (Row.mk [])) (computeOffset (some "3"))
        (computeLimit none none) =
      ((List.replicate 5 (Row.mk [])).drop (3 : Int).toNat).take 2000 :=
  ⟨by decide, by decide,
    C4_amended (List.replicate 5 (Row.mk [])) (some "3") 3 (by decide) (by decide)⟩

/-- C10 counterexample: with a per-endpoint `THROTTLE = 0` and no limit
parameter, the computed limit is 0, so no slice is applied at all and all
3 matching rows are returned — more than the throttle. -/
theorem C10_counterexample :
    (sliceRows (List.replicate 3 (Row.mk [])) (computeOffset none)
      (computeLimit (some 0) none)).length = 3 ∧ ¬ ((3 : Int) ≤ 0) := by
  constructor
  · decide
  · decide

/-- C10 amended: with no limit parameter the returned row count is capped
by a positive per-endpoint `THROTTLE` (and by the global 2000) and by 2000
when no throttle is set; but when `THROTTLE = 0` the computed limit is 0
and no limit slice is applied (only the offset slice, if any). -/
theorem C10_amended {α : Type} :
    (∀ (rows : List α) (offsetParam : Option String) (t : Int), 0 < t →
      (((sliceRows rows (computeOffset offsetParam)
          (computeLimit (some t) none)).length : Int) ≤ t ∧
        (sliceRows rows (computeOffset offsetParam)
          (computeLimit (some t) none)).length ≤ 2000)) ∧
    (∀ (rows : List α) (offsetParam : Option String),
      (sliceRows rows (computeOffset offsetParam)
        (computeLimit none none)).length ≤ 2000) ∧
    (∀ (rows : List α) (offsetParam : Option String),
      sliceRows rows (computeOffset offsetParam) (computeLimit (some 0) none) =
          rows.drop (computeOffset offsetParam).toNat ∨
        sliceRows rows (computeOffset offsetParam) (computeLimit (some 0) none) =
          rows) := by
  refine ⟨?_, ?_, ?_⟩
  · intro rows offsetParam t ht
    have hlim : computeLimit (some t) none = min t 2000 := by
      simp [computeLimit, int_or_none]
    have hne : min t 2000 ≠ 0 := by omega
    have hle := sliceRows_length_le rows (computeOffset offsetParam) _ hne
    rw [hlim] at *
    constructor
    · have : ((min t 2000).toNat : Int) ≤ t := by omega
      omega
    · omega
  · intro rows offsetParam
    have hlim : computeLimit none none = 2000 := by decide
    rw [hlim]
    have hle := sliceRows_length_le rows (computeOffset offsetParam) 2000 (by decide)
    omega
  · intro rows offsetParam
    have hlim : computeLimit (some 0) none = 0 := by decide
    rw [hlim]
    by_cases ho : computeOffset offsetParam = 0
    · right
      simp [sliceRows, ho]
    · left
      simp [sliceRows, ho]

/-- `mapOpt` preserves the length. -/
theorem mapOpt_length {α β : Type} (f : α → Option β) :
    ∀ (l : List α) (r : List β), mapOpt f l = some r → r.length = l.length := by
  intro l
  induction l with
  | nil =>
    intro r h
    simp only [mapOpt, Option.some.injEq] at h
    subst h
    rfl
  | cons a t ih =>
    intro r h
    simp only [mapOpt] at h
    cases hfa : f a with
    | none => rw [hfa] at h; cases h
    | some b =>
      rw [hfa] at h
      cases hmt : mapOpt f t with
      | none => rw [hmt] at h; cases h
      | some bs =>
        rw [hmt] at h
        simp only [Option.map_some', Option.some.injEq] at h
        subst h
        simp [ih bs hmt]

/-- The count the pipeline reports for a sliced page always equals the
unsliced match count, for non-negative offset and computed limit. -/
theorem countTotal_slice {α : Type} (o L : Int) (ho : 0 ≤ o) (hL : 0 ≤ L)
    (matching : List α) :
    countTotal (sliceRows matching o L).length matching.length o L =
      (matching.length : Int) := by
  by_cases ho0 : o = 0
  · subst ho0
    by_cases hL0 : L = 0
    · subst hL0
      simp [sliceRows, countTotal]
    · have hslice : sliceRows matching 0 L = matching.take L.toNat := by
        simp only [sliceRows]
        rw [if_neg (by simp)]
        rw [if_pos hL0]
      rw [hslice]
      simp only [countTotal, List.length_take]
      split
      · rfl
      · rename_i hcond
        push_neg at hcond
        have h2 := hcond.2
        by_cases hmin : min L.toNat matching.length = 0
        · have : L.toNat ≠ 0 := by omega
          omega
        · have := h2 hmin
          omega
  · simp [countTotal, ho0]

/-- Inversion of the success path of `runGet`: a 200 response comes from
the full pipeline with every stage validated, and its payload and count
are exactly the serialized slice and `countTotal`. -/
theorem runGet_success (s : Schema) (cfg : Config)
    (params : List (String × String)) (rows0 : List Row)
    (engine : List Row → List (String × FilterVal) → List Row)
    (fuel : Nat) (resp : GetResponse)
    (h : runGet s cfg params (some rows0) engine fuel = some resp)
    (h200 : resp.status = 200) :
    ∃ fm fst data,
      create_fields_map s (validate_drilldowns s cfg.model cfg.drilldowns).2
          (hideFieldsOf cfg) fuel cfg.model (requestFields params) =
        some (fm, fst) ∧
      serializeRows s fuel cfg.model fm
          (sliceRows
            (engine rows0 (set_filter_kwargs s
              (validate_drilldowns s cfg.model cfg.drilldowns).2 cfg.model
              (requestFilters cfg params)).1)
            (computeOffset (lookupParam params "offset"))
            (computeLimit cfg.throttle (lookupParam params "limit"))) =
        some data ∧
      resp = ⟨200, data,
        some (countTotal data.length
          (engine rows0 (set_filter_kwargs s
            (validate_drilldowns s cfg.model cfg.drilldowns).2 cfg.model
            (requestFilters cfg params)).1).length
          (computeOffset (lookupParam params "offset"))
          (computeLimit cfg.throttle (lookupParam params "limit"))), none⟩ := by
  simp only [runGet] at h
  split at h
  · have hst := congrArg GetResponse.status (Option.some.inj h)
    rw [h200] at hst
    simp at hst
  · split at h
    · cases h
    · rename_i fm fst heq
      split at h
      · have hst := congrArg GetResponse.status (Option.some.inj h)
        rw [h200] at hst
        simp at hst
      · split at h
        · have hst := congrArg GetResponse.status (Option.some.inj h)
          rw [h200] at hst
          simp at hst
        · split at h
          · cases h
          · rename_i data hser
            refine ⟨fm, fst, data, heq, hser, (Option.some.inj h).symm⟩

/-- C5: for every successful request with non-negative offset and
non-negative computed limit, the `X-Total-Count` header equals the number
of rows matching the compiled filters before the offset/limit slice; in
particular, over 5 matching rows, `limit=1` returns 1 row with count 5,
`offset=3` returns 2 rows with count 5, `offset=2&limit=100` returns 3
rows with count 5, and no limit/offset returns all 5 with count 5. -/
theorem C5_total_count :
    (∀ (s : Schema) (cfg : Config) (params : List (String × String))
      (rows0 : List Row) (engine : List Row → List (String × FilterVal) → List Row)
      (fuel : Nat) (resp : GetResponse),
      runGet s cfg params (some rows0) engine fuel = some resp →
      resp.status = 200 →
      0 ≤ computeOffset (lookupParam params "offset") →
      0 ≤ computeLimit cfg.throttle (lookupParam params "limit") →
      resp.xTotalCount = some (((engine rows0 (set_filter_kwargs s
        (validate_drilldowns s cfg.model cfg.drilldowns).2 cfg.model
        (requestFilters cfg params)).1).length : Nat) : Int)) ∧
    ((runGet testSchema testConfig [("limit", "1")] (some fiveRows) engAll 10).map
      (fun r => (r.status, r.data.length, r.xTotalCount)) = some (200, 1, some 5)) ∧
    ((runGet testSchema testConfig [("offset", "3")] (some fiveRows) engAll 10).map
      (fun r => (r.status, r.data.length, r.xTotalCount)) = some (200, 2, some 5)) ∧
    ((runGet testSchema testConfig [("offset", "2"), ("limit", "100")]
        (some fiveRows) engAll 10).map
      (fun r => (r.status, r.data.length, r.xTotalCount)) = some (200, 3, some 5)) ∧
    ((runGet testSchema testConfig [] (some fiveRows) engAll 10).map
      (fun r => (r.status, r.data.length, r.xTotalCount)) = some (200, 5, some 5)) := by
  refine ⟨?_, by decide, by decide, by decide, by decide⟩
  intro s cfg params rows0 engine fuel resp h h200 hO hL
  obtain ⟨fm, fst, data, _, hser, hresp⟩ :=
    runGet_success s cfg params rows0 engine fuel resp h h200
  subst hresp
  have hdl : data.length = (sliceRows
      (engine rows0 (set_filter_kwargs s
        (validate_drilldowns s cfg.model cfg.drilldowns).2 cfg.model
        (requestFilters cfg params)).1)
      (computeOffset (lookupParam params "offset"))
      (computeLimit cfg.throttle (lookupParam params "limit"))).length :=
    mapOpt_length _ _ _ hser
  show some (countTotal data.length _ _ _) = _
  rw [hdl, countTotal_slice _ _ hO hL]

/-- Witness for C5's quantified part: `offset=3` over the five test rows. -/
theorem C5_witness :
    runGet testSchema testConfig [("offset", "3")] (some fiveRows) engAll 10 =
      some ⟨200, [[("id", OutVal.prim (Value.int 4))],
        [("id", OutVal.prim (Value.int 5))]], some 5, none⟩ ∧
    (0 : Int) ≤ computeOffset (lookupParam [("offset", "3")] "offset") ∧
    (5 : Int) = ((engAll fiveRows (set_filter_kwargs testSchema
      (validate_drilldowns testSchema testConfig.model testConfig.drilldowns).2
      testConfig.model
      (requestFilters testConfig [("offset", "3")])).1).length : Int) := by
  have h : runGet testSchema testConfig [("offset", "3")] (some fiveRows) engAll 10 =
      some ⟨200, [[("id", OutVal.prim (Value.int 4))],
        [("id", OutVal.prim (Value.int 5))]], some 5, none⟩ := by rfl
  refine ⟨h, by decide, ?_⟩
  have := C5_total_count.1 testSchema testConfig [("offset", "3")] fiveRows engAll
    10 _ h rfl (by decide) (by decide)
  simpa using this

/-- Witness for C10's amended statement: throttle 5 over 7 rows. -/
theorem C10_witness :
    (0 : Int) < 5 ∧
    (((sliceRows (List.replicate 7 (Row.mk [])) (computeOffset none)
        (computeLimit (some 5) none)).length : Int) ≤ 5 ∧
      (sliceRows (List.replicate 7 (Row.mk [])) (computeOffset none)
        (computeLimit (some 5) none)).length ≤ 2000) :=
  ⟨by decide,
    (C10_amended (α := Row)).1 (List.replicate 7 (Row.mk [])) none 5 (by decide)⟩

/-! ### C1: hidden fields and explicit requests -/

/-- C1 (code bug): the hidden-field list suppresses a field only inside the
`ALL` expansion of `_create_fields_map`; a request that names the hidden
dotted path explicitly in `fields` compiles without error and the hidden
field's value appears in the response body.  Here `salesperson.commission_pct`
is hidden by the test endpoint's configuration, yet
`fields=salesperson.commission_pct` returns it with status 200. -/
theorem C1_hidden_field_in_output :
    "salesperson.commission_pct" ∈ hideFieldsOf testConfig ∧
    runGet testSchema testConfig [("fields", "salesperson.commission_pct")]
        (some [testRow]) engAll 10 =
      some ⟨200, [[("salesperson",
        OutVal.record [("commission_pct", OutVal.prim (Value.int 8))])]],
        some 1, none⟩ :=
  ⟨by decide, by rfl⟩

/-! ### C9: extra `'__'` components in filter keys -/

/-- A list whose first two elements are `a, b`. -/
theorem take_two_eq {α : Type} {l : List α} {a b : α}
    (h : l.take 2 = [a, b]) : ∃ t, l = a :: b :: t := by
  match l with
  | [] => simp at h
  | [x] => simp at h
  | x :: y :: t =>
    simp only [List.take_succ_cons, List.take_zero, List.cons.injEq,
      and_true] at h
    exact ⟨t, by simp [h.1, h.2]⟩

/-- C9: only the component immediately after the first `'__'` of a filter
key is used (as the operator); all later components are silently dropped.
Two keys agreeing on their first two `'__'`-components compile to the same
filter kwargs with the same (absence of) error, and concretely
`total__gt__x=100` filters `total` with operator `gt`. -/
theorem C9_operator_from_second_component :
    (∀ (s : Schema) (dds : List String) (model p₁ p₂ d op v : String),
      (pySplit p₁ "__").take 2 = [d, op] →
      (pySplit p₂ "__").take 2 = [d, op] →
      set_filter_kwargs s dds model [(p₁, v)] =
        set_filter_kwargs s dds model [(p₂, v)]) ∧
    set_filter_kwargs testSchema
        (validate_drilldowns testSchema "test_Invoice" testConfig.drilldowns).2
        "test_Invoice" [("total__gt__x", "100")] =
      ([("total__gt", FilterVal.s "100")], "") := by
  constructor
  · intro s dds model p₁ p₂ d op v h₁ h₂
    obtain ⟨t₁, ht₁⟩ := take_two_eq h₁
    obtain ⟨t₂, ht₂⟩ := take_two_eq h₂
    simp only [set_filter_kwargs, filterStep, List.foldl, ht₁, ht₂, List.headD]
  · decide

/-- Witness for C9's quantified part: keys `total__gt__x` and
`total__gt__y` compile identically. -/
theorem C9_witness :
    (pySplit "total__gt__x" "__").take 2 = ["total", "gt"] ∧
    (pySplit "total__gt__y" "__").take 2 = ["total", "gt"] ∧
    set_filter_kwargs testSchema
        (validate_drilldowns testSchema "test_Invoice" testConfig.drilldowns).2
        "test_Invoice" [("total__gt__x", "100")] =
      set_filter_kwargs testSchema
        (validate_drilldowns testSchema "test_Invoice" testConfig.drilldowns).2
        "test_Invoice" [("total__gt__y", "100")] :=
  ⟨by decide, by decide,
    C9_operator_from_second_component.1 testSchema
      (validate_drilldowns testSchema "test_Invoice" testConfig.drilldowns).2
      "test_Invoice" "total__gt__x" "total__gt__y" "total" "gt" "100"
      (by decide) (by decide)⟩

/-! ### C8: several invalid entries in one request -/

/-- C8 counterexample: a request whose `fields` parameter contains two
invalid names `zzz,yyy` is answered 400 with the error header describing
`yyy` — the *last* failure, not the first one encountered (`zzz`). -/
theorem C8_counterexample :
    runGet testSchema testConfig [("fields", "zzz,yyy")] (some [testRow])
        engAll 10 =
      some ⟨400, [], none,
        some "Error in fields: \x22yyy\x22 is not a valid field"⟩ ∧
    "Error in fields: \x22yyy\x22 is not a valid field" ≠
      "Error in fields: \x22zzz\x22 is not a valid field" :=
  ⟨by rfl, by decide⟩

/-- `foldOpt` over an appended list runs the two parts in sequence. -/
theorem foldOpt_append {σ α : Type} (f : σ → α → Option σ) (l₁ l₂ : List α) :
    ∀ st, foldOpt f st (l₁ ++ l₂) =
      match foldOpt f st l₁ with
      | none => none
      | some st' => foldOpt f st' l₂ := by
  induction l₁ with
  | nil => intro st; simp [foldOpt]
  | cons a t ih =>
    intro st
    simp only [List.cons_append, foldOpt]
    cases f st a with
    | none => rfl
    | some st' => exact ih st'

/-- C8 amended, part 1: once the fields stage records an error, `get`
answers 400 with exactly that stage error in the header, for every engine —
the filter stage and the query execution never influence the response. -/
theorem C8_fields_error_short_circuits (s : Schema) (cfg : Config)
    (params : List (String × String)) (rows0 : List Row)
    (engine : List Row → List (String × FilterVal) → List Row)
    (fuel : Nat) (fm : FMap) (fst : FMState)
    (hdd : (validate_drilldowns s cfg.model cfg.drilldowns).1 = "")
    (hfm : create_fields_map s (validate_drilldowns s cfg.model cfg.drilldowns).2
      (hideFieldsOf cfg) fuel cfg.model (requestFields params) = some (fm, fst))
    (hferr : fst.error ≠ "") :
    runGet s cfg params (some rows0) engine fuel =
      some ⟨400, [], none, some fst.error⟩ := by
  simp only [runGet]
  rw [if_neg (by simp [hdd])]
  rw [hfm]
  simp [hferr]

/-- C8 amended, part 2: within the fields stage, a later invalid entry
overwrites the error of every earlier one — the recorded message is the
one of the last failing entry. -/
theorem C8_last_fields_error_wins (s : Schema) (dds hide : List String)
    (fuel : Nat) (model : String) (fields : List String) (f : String)
    (fm0 : FMap) (st0 : FMState)
    (hprev : foldOpt (fun (acc : FMap × FMState) f =>
        add_to_fields_map s dds hide fuel model acc.1 (pySplit f ".") "" acc.2)
      (FMap.empty, ⟨"", [], []⟩) fields = some (fm0, st0))
    (hfuel : 0 < fuel)
    (hinvalid : pyStrip ((pySplit f ".").headD "") ≠ "ALL")
    (hnf : is_field_in s model (pyStrip ((pySplit f ".").headD "")) = false) :
    ∃ fm, create_fields_map s dds hide fuel model (fields ++ [f]) =
      some (fm, { st0 with error := ("Error in fields: \x22" ++
        String.intercalate "." (pySplit f ".") ++
        "\x22 is not a valid field") }) := by
  obtain ⟨k, rfl⟩ : ∃ k, fuel = k + 1 := ⟨fuel - 1, by omega⟩
  simp only [create_fields_map, foldOpt_append, hprev]
  have hstep : add_to_fields_map s dds hide (k + 1) model fm0 (pySplit f ".")
      "" st0 = some (fm0, { st0 with error := ("Error in fields: \x22" ++
        String.intercalate "." (pySplit f ".") ++
        "\x22 is not a valid field") }) := by
    simp only [add_to_fields_map]
    rw [if_pos (not_or.mpr ⟨hinvalid, by simpa using hnf⟩)]
  simp [foldOpt, hstep]

/-- Witness for C8's amended parts: the concrete `fields=zzz,yyy` request. -/
theorem C8_witness :
    runGet testSchema testConfig [("fields", "zzz,yyy")] (some [testRow])
        engAll 10 =
      some ⟨400, [], none,
        some (⟨"Error in fields: \x22yyy\x22 is not a valid field", [], []⟩ :
          FMState).error⟩ :=
  C8_fields_error_short_circuits testSchema testConfig
    [("fields", "zzz,yyy")] [testRow] engAll 10 FMap.empty
    ⟨"Error in fields: \x22yyy\x22 is not a valid field", [], []⟩
    (by decide) (by rfl) (by decide)

/-! ### C2: filters over disallowed relation paths -/

/-- Every declared field of a well-formed schema is a well-formed field. -/
theorem wf_fieldsOf (s : Schema) (hwf : wfSchema s = true) (m : String) :
    ∀ d ∈ fieldsOf s m, wfField s d = true := by
  intro d hd
  simp only [fieldsOf] at hd
  cases hf : s.models.find? (fun p => p.1 = m) with
  | none => rw [hf] at hd; cases hd
  | some p =>
    rw [hf] at hd
    simp only [Option.map_some', Option.getD_some] at hd
    have hp := List.mem_of_find?_eq_some hf
    simp only [wfSchema, List.all_eq_true] at hwf
    have := hwf p hp
    simp only [Bool.and_eq_true, List.all_eq_true] at this
    exact this.2 d hd

/-- Per-model facts of a well-formed schema: no duplicate field names and a
scalar `id` field. -/
theorem wf_model_facts (s : Schema) (hwf : wfSchema s = true) (m : String)
    (hm : m ∈ s.models.map (fun p => p.1)) :
    (allFieldNames s m).Nodup ∧ is_field_in s m "id" = true ∧
      get_field_type s m "id" = some .scalar := by
  cases hf : s.models.find? (fun p => p.1 = m) with
  | none =>
    obtain ⟨p, hp, hpm⟩ := List.mem_map.mp hm
    have := List.find?_eq_none.mp hf p hp
    simp [hpm] at this
  | some p =>
    have hp := List.mem_of_find?_eq_some hf
    have hpm : p.1 = m := by
      have := List.find?_some hf
      simpa using this
    simp only [wfSchema, List.all_eq_true] at hwf
    have hfacts := hwf p hp
    simp only [Bool.and_eq_true, decide_eq_true_eq] at hfacts
    have hfields : fieldsOf s m = p.2 := by
      simp [fieldsOf, hf]
    refine ⟨?_, ?_, ?_⟩
    · simpa [allFieldNames, hfields] using hfacts.1.1.1
    · simpa [hpm] using hfacts.1.1.2
    · have := hfacts.1.2
      rw [hpm] at this
      simpa using this

/-- A relation field of a well-formed schema has a declared target model. -/
theorem wfField_target (s : Schema) (d : FieldDecl) (h : wfField s d = true)
    (hft : d.ftype ≠ .scalar) :
    ∃ tm, d.target = some tm ∧ tm ∈ s.models.map (fun p => p.1) := by
  obtain ⟨nm, fty, tgt⟩ := d
  simp only at hft
  cases fty with
  | scalar => exact absurd rfl hft
  | foreignKey | oneToOne | manyToMany | relatedObject =>
    all_goals
      cases tgt with
      | none => simp [wfField] at h
      | some tm =>
        simp only [wfField, Bool.and_eq_true] at h
        exact ⟨tm, rfl, by simpa using h.2⟩

/-- Name facts of a well-formed field. -/
theorem wfField_name (s : Schema) (d : FieldDecl) (h : wfField s d = true) :
    pySplit d.name "." = [d.name] ∧ pyStrip d.name = d.name ∧
      d.name ≠ "ALL" := by
  simp only [wfField, Bool.and_eq_true, decide_eq_true_eq] at h
  exact ⟨h.1.1.1, h.1.1.2, h.1.2⟩

/-- A `get_field_type` result comes from the first matching declaration. -/
theorem get_field_type_inv (s : Schema) (m f : String) (τ : FieldType)
    (h : get_field_type s m f = some τ) :
    ∃ d, (fieldsOf s m).find? (fun d => d.name = f) = some d ∧
      d ∈ fieldsOf s m ∧ d.name = f ∧ d.ftype = τ := by
  simp only [get_field_type] at h
  cases hf : (fieldsOf s m).find? (fun d => d.name = f) with
  | none => rw [hf] at h; cases h
  | some d =>
    rw [hf] at h
    refine ⟨d, rfl, List.mem_of_find?_eq_some hf, ?_, ?_⟩
    · have := List.find?_some hf
      simpa using this
    · simpa using h

/-- For a non-scalar field, `get_model` returns its declared target. -/
theorem get_model_of_find (s : Schema) (m f : String) (d : FieldDecl)
    (hf : (fieldsOf s m).find? (fun d => d.name = f) = some d)
    (hns : d.ftype ≠ .scalar) :
    get_model s m f = d.target := by
  obtain ⟨nm, fty, tgt⟩ := d
  simp only at hns
  cases fty with
  | scalar => exact absurd rfl hns
  | foreignKey | oneToOne | manyToMany | relatedObject => simp [get_model, hf]

/-! ### Key-membership lemmas for fields maps -/

/-- The key just set is among the keys. -/
theorem FMap.mem_keys_set_self (m : FMap) (k : String) (v : FMap) :
    k ∈ (m.set k v).keys := by
  cases m with
  | node es =>
    simp only [FMap.set, FMap.keys, FMap.entries]
    split
    · rename_i h
      simp only [List.any_eq_true, decide_eq_true_eq] at h
      obtain ⟨p, hp, hpk⟩ := h
      have hm : (k, v) ∈ es.map (fun p => if p.1 = k then (k, v) else p) :=
        List.mem_map.mpr ⟨p, hp, by simp [hpk]⟩
      exact List.mem_map.mpr ⟨(k, v), hm, rfl⟩
    · simp

/-- `set` preserves existing keys. -/
theorem FMap.mem_keys_set_of (m : FMap) (k : String) (v : FMap) (x : String)
    (hx : x ∈ m.keys) : x ∈ (m.set k v).keys := by
  cases m with
  | node es =>
    simp only [FMap.set, FMap.keys, FMap.entries] at hx ⊢
    obtain ⟨p, hp, hpx⟩ := List.mem_map.mp hx
    split
    · by_cases hpk : p.1 = k
      · have hm : (k, v) ∈ es.map (fun p => if p.1 = k then (k, v) else p) :=
          List.mem_map.mpr ⟨p, hp, by simp [hpk]⟩
        rw [← hpx, hpk]
        exact List.mem_map.mpr ⟨(k, v), hm, rfl⟩
      · refine List.mem_map.mpr ⟨p, List.mem_map.mpr ⟨p, hp, by simp [hpk]⟩, hpx⟩
    · exact List.mem_map.mpr ⟨p, List.mem_append_left _ hp, hpx⟩

/-- `set` adds at most the key being set. -/
theorem FMap.keys_set_subset (m : FMap) (k : String) (v : FMap) (x : String)
    (hx : x ∈ (m.set k v).keys) : x ∈ m.keys ∨ x = k := by
  cases m with
  | node es =>
    simp only [FMap.set, FMap.keys, FMap.entries] at hx ⊢
    split at hx
    · obtain ⟨q, hq, hqx⟩ := List.mem_map.mp hx
      obtain ⟨p, hp, hpq⟩ := List.mem_map.mp hq
      by_cases hpk : p.1 = k
      · right
        rw [← hqx, ← hpq]
        simp [hpk]
      · left
        refine List.mem_map.mpr ⟨p, hp, ?_⟩
        rw [← hqx, ← hpq]
        simp [hpk]
    · obtain ⟨q, hq, hqx⟩ := List.mem_map.mp hx
      rcases List.mem_append.mp hq with h1 | h2
      · exact Or.inl (List.mem_map.mpr ⟨q, h1, hqx⟩)
      · right
        simp only [List.mem_singleton] at h2
        rw [← hqx, h2]

/-- A present key is among the keys. -/
theorem FMap.mem_keys_of_get (m : FMap) (n : String)
    (h : ¬ (m.get n).isNone) : n ∈ m.keys := by
  cases m with
  | node es =>
    simp only [FMap.get, FMap.keys, FMap.entries] at h ⊢
    cases hf : es.find? (fun p => p.1 = n) with
    | none => rw [hf] at h; simp at h
    | some q =>
      have hq := List.mem_of_find?_eq_some hf
      have hqn : q.1 = n := by simpa using List.find?_some hf
      exact List.mem_map.mpr ⟨q, hq, hqn⟩

/-- The inserted key is among the keys after `insertAbsent`. -/
theorem mem_keys_insertAbsent_self (m : FMap) (n : String) :
    n ∈ (insertAbsent m n).keys := by
  simp only [insertAbsent]
  split
  · exact FMap.mem_keys_set_self m n FMap.empty
  · exact FMap.mem_keys_of_get m n (by assumption)

/-- `insertAbsent` preserves existing keys. -/
theorem mem_keys_insertAbsent_of (m : FMap) (n x : String) (hx : x ∈ m.keys) :
    x ∈ (insertAbsent m n).keys := by
  simp only [insertAbsent]
  split
  · exact FMap.mem_keys_set_of m n FMap.empty x hx
  · exact hx

/-- `insertAbsent` adds at most one key. -/
theorem keys_insertAbsent_subset (m : FMap) (n x : String)
    (hx : x ∈ (insertAbsent m n).keys) : x ∈ m.keys ∨ x = n := by
  simp only [insertAbsent] at hx
  split at hx
  · exact FMap.keys_set_subset m n FMap.empty x hx
  · exact Or.inl hx

/-! ### Single-field step lemmas for `add_to_fields_map` -/

/-- `addElse` on a segment which is not a `ManyToManyField` (scalar, FK,
O2O or RelatedObject) with no sub-segments: the field is recorded as a
leaf, no error, no relateds. -/
theorem addElse_plain (s : Schema) (dds : List String)
    (recur : String → FMap → List String → String → FMState →
      Option (FMap × FMState))
    (cm n cr ds : String) (map : FMap) (st : FMState)
    (hm2m : get_field_type s cm n ≠ some .manyToMany) :
    addElse s dds recur cm map ds n [] cr st =
      some (insertAbsent map n, st) := by
  simp only [addElse]
  cases hgm' : get_model s cm n with
  | none => rfl
  | some nm =>
    show (if get_field_type s cm n = some FieldType.manyToMany ∨
        ([] : List String) ≠ [] then _ else _) = _
    split
    · rename_i hcond
      rcases hcond with h | h
      · exact absurd h hm2m
      · exact absurd rfl h
    · rfl

/-- `addElse` on an allowed `ManyToManyField` with no sub-segments: the
field's subtree is built by recursing on `id`, and the path goes to the
prefetch list. -/
theorem addElse_m2m (s : Schema) (dds : List String)
    (recur : String → FMap → List String → String → FMState →
      Option (FMap × FMState))
    (cm n cr tm ds : String) (map : FMap) (st : FMState)
    (subRes : FMap) (stRes : FMState)
    (hft : get_field_type s cm n = some .manyToMany)
    (hgm : get_model s cm n = some tm)
    (hdd : accumPath cr n ∈ dds)
    (hrec : recur tm
      (((if (map.get n).isNone then map.set n FMap.empty else map).get n).getD
        FMap.empty)
      (pySplit "id" ".") ""
      { st with prefetch_relateds := st.prefetch_relateds ++ [accumPath cr n] } =
      some (subRes, stRes)) :
    addElse s dds recur cm map ds n [] cr st =
      some ((insertAbsent map n).set n subRes, stRes) := by
  simp only [addElse, hgm, hft, true_or, if_true]
  split
  · rw [if_neg (show ¬ (isSelectType (some FieldType.manyToMany) = true) from
      by decide)]
    rw [if_neg (show ¬ (([] : List String) ≠ []) from by simp)]
    rw [hrec]
    rfl
  · rename_i h
    exact absurd hdd h

/-- Adding one segment which is not a `ManyToManyField` (scalar, FK, O2O or
RelatedObject without sub-fields): the field is recorded as a leaf, no
error, no relateds. -/
theorem add_single_plain (s : Schema) (dds hide : List String) (k : Nat)
    (cm n cr : String) (map : FMap) (st : FMState)
    (hstrip : pyStrip n = n) (hALL : n ≠ "ALL")
    (hfi : is_field_in s cm n = true)
    (hm2m : get_field_type s cm n ≠ some .manyToMany) :
    add_to_fields_map s dds hide (k + 1) cm map [n] cr st =
      some (insertAbsent map n, st) := by
  simp only [add_to_fields_map, List.headD, List.tail_cons, hstrip]
  rw [if_neg (not_not_intro (Or.inr hfi))]
  rw [if_neg hALL]
  exact addElse_plain s dds _ cm n cr _ map st hm2m

/-- Adding one segment which is an allowed `ManyToManyField` without
sub-fields: the field is recorded with the default `{'id': {}}` subtree,
its path is appended to the prefetch list, no error. -/
theorem add_single_m2m (s : Schema) (dds hide : List String) (k : Nat)
    (cm n cr tm : String) (map : FMap) (st : FMState)
    (hstrip : pyStrip n = n) (hALL : n ≠ "ALL")
    (hfi : is_field_in s cm n = true)
    (hft : get_field_type s cm n = some .manyToMany)
    (hgm : get_model s cm n = some tm)
    (hdd : accumPath cr n ∈ dds)
    (hidfi : is_field_in s tm "id" = true)
    (hidm2m : get_field_type s tm "id" ≠ some .manyToMany) :
    add_to_fields_map s dds hide (k + 2) cm map [n] cr st =
      some ((insertAbsent map n).set n
          (insertAbsent (((insertAbsent map n).get n).getD FMap.empty) "id"),
        { st with prefetch_relateds :=
          st.prefetch_relateds ++ [accumPath cr n] }) := by
  simp only [add_to_fields_map, List.headD, List.tail_cons, hstrip]
  rw [if_neg (not_not_intro (Or.inr hfi))]
  rw [if_neg hALL]
  exact addElse_m2m s dds _ cm n cr tm _ map st _ _ hft hgm hdd (by
    rw [show pySplit "id" "." = ["id"] from by decide]
    exact add_single_plain s dds hide k tm "id" "" _ _ (by decide) (by decide)
      hidfi hidm2m)

/-- `addElse` on an allowed `ManyToManyField` with sub-segments: the
subtree is built by recursing on the remaining segments against the
related model. -/
theorem addElse_m2m_sub (s : Schema) (dds : List String)
    (recur : String → FMap → List String → String → FMState →
      Option (FMap × FMState))
    (cm n cr tm ds g : String) (map : FMap) (st : FMState)
    (subRes : FMap) (stRes : FMState)
    (hft : get_field_type s cm n = some .manyToMany)
    (hgm : get_model s cm n = some tm)
    (hdd : accumPath cr n ∈ dds)
    (hrec : recur tm
      (((if (map.get n).isNone then map.set n FMap.empty else map).get n).getD
        FMap.empty)
      [g] (accumPath cr n)
      { st with prefetch_relateds := st.prefetch_relateds ++ [accumPath cr n] } =
      some (subRes, stRes)) :
    addElse s dds recur cm map ds n [g] cr st =
      some ((insertAbsent map n).set n subRes, stRes) := by
  simp only [addElse, hgm, hft, true_or, if_true]
  split
  · rw [if_neg (show ¬ (isSelectType (some FieldType.manyToMany) = true) from
      by decide)]
    rw [if_pos (show ([g] : List String) ≠ [] from by simp)]
    rw [hrec]
    rfl
  · rename_i h
    exact absurd hdd h

/-- Adding the two segments `n.g` where `n` is an allowed `ManyToManyField`
and `g` a plain field of the related model: the map records `{n: {g: {}}}`
and the path of `n` goes to the prefetch list. -/
theorem add_pair_m2m (s : Schema) (dds hide : List String) (k : Nat)
    (cm n g cr tm : String) (map : FMap) (st : FMState)
    (hstrip : pyStrip n = n) (hALL : n ≠ "ALL")
    (hfi : is_field_in s cm n = true)
    (hft : get_field_type s cm n = some .manyToMany)
    (hgm : get_model s cm n = some tm)
    (hdd : accumPath cr n ∈ dds)
    (hgs : pyStrip g = g) (hgALL : g ≠ "ALL")
    (hgfi : is_field_in s tm g = true)
    (hgm2m : get_field_type s tm g ≠ some .manyToMany) :
    add_to_fields_map s dds hide (k + 2) cm map [n, g] cr st =
      some ((insertAbsent map n).set n
          (insertAbsent (((insertAbsent map n).get n).getD FMap.empty) g),
        { st with prefetch_relateds :=
          st.prefetch_relateds ++ [accumPath cr n] }) := by
  simp only [add_to_fields_map, List.headD, List.tail_cons, hstrip]
  rw [if_neg (not_not_intro (Or.inr hfi))]
  rw [if_neg hALL]
  exact addElse_m2m_sub s dds _ cm n cr tm _ g map st _ _ hft hgm hdd
    (add_single_plain s dds hide k tm g (accumPath cr n) _ _ hgs hgALL hgfi
      hgm2m)

/-- Inserting a fresh key into the empty map. -/
theorem insertAbsent_empty (f : String) :
    insertAbsent FMap.empty f = FMap.node [(f, FMap.empty)] := by
  simp [insertAbsent, FMap.get, FMap.set, FMap.empty, FMap.entries]

/-- Looking up the only key of a one-entry map. -/
theorem get_single (f : String) (v : FMap) :
    (FMap.node [(f, v)]).get f = some v := by
  simp [FMap.get]

/-- Replacing the only key of a one-entry map. -/
theorem set_single (f : String) (v w : FMap) :
    (FMap.node [(f, v)]).set f w = FMap.node [(f, w)] := by
  simp [FMap.set]

/-- `_create_fields_map` on the single request `f` for an allowed
`ManyToManyField` `f`: the map is `{f: {id: {}}}` (the id-only default)
and `f`'s path is prefetched, with no error. -/
theorem create_single_m2m (s : Schema) (dds hide : List String) (k : Nat)
    (model req f tm : String)
    (hsplit : pySplit req "." = [f])
    (hstrip : pyStrip f = f) (hALL : f ≠ "ALL")
    (hfi : is_field_in s model f = true)
    (hft : get_field_type s model f = some .manyToMany)
    (hgm : get_model s model f = some tm)
    (hdd : accumPath "" f ∈ dds)
    (hidfi : is_field_in s tm "id" = true)
    (hidm2m : get_field_type s tm "id" ≠ some .manyToMany) :
    create_fields_map s dds hide (k + 2) model [req] =
      some (FMap.node [(f, FMap.node [("id", FMap.empty)])],
        ⟨"", [], [accumPath "" f]⟩) := by
  simp only [create_fields_map, foldOpt, hsplit]
  rw [add_single_m2m s dds hide k model f "" tm FMap.empty ⟨"", [], []⟩ hstrip
    hALL hfi hft hgm hdd hidfi hidm2m]
  simp only [insertAbsent_empty, get_single, Option.getD_some, set_single,
    insertAbsent_empty]
  simp [show strContains "" "Error in fields" = false from by decide]

/-- `_create_fields_map` on the single request `f.g` for an allowed
`ManyToManyField` `f` and a plain field `g` of its related model: the map
is `{f: {g: {}}}` and `f`'s path is prefetched, with no error. -/
theorem create_pair_m2m (s : Schema) (dds hide : List String) (k : Nat)
    (model req f g tm : String)
    (hsplit : pySplit req "." = [f, g])
    (hstrip : pyStrip f = f) (hALL : f ≠ "ALL")
    (hfi : is_field_in s model f = true)
    (hft : get_field_type s model f = some .manyToMany)
    (hgm : get_model s model f = some tm)
    (hdd : accumPath "" f ∈ dds)
    (hgs : pyStrip g = g) (hgALL : g ≠ "ALL")
    (hgfi : is_field_in s tm g = true)
    (hgm2m : get_field_type s tm g ≠ some .manyToMany) :
    create_fields_map s dds hide (k + 2) model [req] =
      some (FMap.node [(f, FMap.node [(g, FMap.empty)])],
        ⟨"", [], [accumPath "" f]⟩) := by
  simp only [create_fields_map, foldOpt, hsplit]
  rw [add_pair_m2m s dds hide k model f g "" tm FMap.empty ⟨"", [], []⟩ hstrip
    hALL hfi hft hgm hdd hgs hgALL hgfi hgm2m]
  simp only [insertAbsent_empty, get_single, Option.getD_some, set_single,
    insertAbsent_empty]
  simp [show strContains "" "Error in fields" = false from by decide]

/-! ### Serializer pruning lemmas -/

/-- Filtering a duplicate-free list for membership in the singleton `[a]`
keeps exactly `a`. -/
theorem filter_mem_single (l : List String) (a : String) (hnd : l.Nodup)
    (ha : a ∈ l) :
    l.filter (fun x => decide (x ∈ ([a] : List String))) = [a] := by
  induction l with
  | nil => cases ha
  | cons b t ih =>
    rcases List.nodup_cons.mp hnd with ⟨hbt, hndt⟩
    by_cases hb : b = a
    · subst hb
      simp only [List.filter_cons]
      rw [if_pos (by simp)]
      have hnil : t.filter (fun x => decide (x ∈ ([b] : List String))) = [] := by
        rw [List.filter_eq_nil_iff]
        intro x hx
        simp only [List.mem_singleton, decide_eq_true_eq]
        intro hxb
        exact hbt (hxb ▸ hx)
      rw [hnil]
    · rcases List.mem_cons.mp ha with h | h
      · exact absurd h.symm hb
      · simp only [List.filter_cons]
        rw [if_neg (by simp [hb])]
        exact ih hndt h

/-- The default serializer fields inherit the schema's lack of duplicate
field names. -/
theorem defaultFields_nodup (s : Schema) (m : String)
    (h : (allFieldNames s m).Nodup) : (defaultFields s m).Nodup := by
  apply h.sublist
  exact List.Sublist.map _ (List.filter_sublist _)

/-- `mapOpt` of a function that succeeds pointwise. -/
theorem mapOpt_of_forall {α β : Type} (fn : α → Option β) (g : α → β) :
    ∀ l : List α, (∀ a ∈ l, fn a = some (g a)) →
      mapOpt fn l = some (l.map g) := by
  intro l
  induction l with
  | nil => intro _; rfl
  | cons a t ih =>
    intro h
    simp only [mapOpt, h a (by simp)]
    rw [ih (fun x hx => h x (by simp [hx]))]
    rfl

/-- One-step unfolding of `pruneRow` at positive fuel; a plain equation so
that rewriting never opens the recursive occurrence inside `pruneStep`. -/
theorem pruneRow_succ (s : Schema) (fuel : Nat) (model : String) (fm : FMap)
    (row : Row) :
    pruneRow s (fuel + 1) model fm row =
      if fm.isEmptyMap then
        some (((defaultFields s model).filter (fun f => f = "id")).map
          (fun f => (f, renderDefault s model f row)))
      else
        foldOpt (pruneStep s model (pruneRow s fuel) row)
          (((defaultFields s model).filter (fun f => f ∈ fm.keys)).map
            (fun f => (f, renderDefault s model f row)))
          fm.entries := rfl

/-- Pruning with the one-leaf map `{g: {}}` keeps exactly the field `g`,
rendered by the default serializer field. -/
theorem pruneRow_single_leaf (s : Schema) (k : Nat) (tm g : String) (r : Row)
    (hnd : (allFieldNames s tm).Nodup) (hgd : g ∈ defaultFields s tm) :
    pruneRow s (k + 1) tm (FMap.node [(g, FMap.empty)]) r =
      some [(g, renderDefault s tm g r)] := by
  rw [pruneRow_succ]
  rw [if_neg (by simp [show FMap.isEmptyMap (FMap.node [(g, FMap.empty)]) =
    false from rfl])]
  simp only [FMap.keys, FMap.entries, List.map]
  rw [filter_mem_single _ g (defaultFields_nodup s tm hnd) hgd]
  rfl

/-- Pruning with the defaulted map `{f: {id: {}}}` for a `ManyToManyField`
`f` yields the flat identifier list — not nested records. -/
theorem pruneRow_flat_m2m (s : Schema) (k : Nat) (m f : String) (row : Row)
    (rs : List Row)
    (hnd : (allFieldNames s m).Nodup) (hfd : f ∈ defaultFields s m)
    (hft : get_field_type s m f = some .manyToMany)
    (hrow : rowLookup row f = some (Cell.many rs)) :
    pruneRow s (k + 1) m (FMap.node [(f, FMap.node [("id", FMap.empty)])]) row =
      some [(f, OutVal.idList (rs.map idOf))] := by
  have hrd : renderDefault s m f row = OutVal.idList (rs.map idOf) := by
    simp only [renderDefault, hft, hrow]
  rw [pruneRow_succ]
  rw [if_neg (by simp [show FMap.isEmptyMap
    (FMap.node [(f, FMap.node [("id", FMap.empty)])]) = false from rfl])]
  simp only [FMap.keys, FMap.entries, List.map]
  rw [filter_mem_single _ f (defaultFields_nodup s m hnd) hfd]
  simp only [List.map, hrd]
  rfl

/-- Pruning with the map `{f: {g: {}}}` for a `ManyToManyField` `f` and a
sub-field `g ≠ id` yields the sequence of nested records, each pruned to
exactly the sub-field `g`. -/
theorem pruneRow_nested_m2m (s : Schema) (k : Nat) (m f g tm : String)
    (row : Row) (rs : List Row)
    (hndm : (allFieldNames s m).Nodup) (hndt : (allFieldNames s tm).Nodup)
    (hfd : f ∈ defaultFields s m) (hgd : g ∈ defaultFields s tm)
    (hft : get_field_type s m f = some .manyToMany)
    (hgm : get_model s m f = some tm)
    (hgid : g ≠ "id")
    (hrow : rowLookup row f = some (Cell.many rs)) :
    pruneRow s (k + 2) m (FMap.node [(f, FMap.node [(g, FMap.empty)])]) row =
      some [(f, OutVal.recordList
        (rs.map (fun r => [(g, renderDefault s tm g r)])))] := by
  have hio : FMap.isIdOnly (FMap.node [(g, FMap.empty)]) = false := by
    simp [FMap.isIdOnly, hgid]
  have hstep : pruneStep s m (pruneRow s (k + 1)) row
      [(f, renderDefault s m f row)] (f, FMap.node [(g, FMap.empty)]) =
      some [(f, OutVal.recordList
        (rs.map (fun r => [(g, renderDefault s tm g r)])))] := by
    simp only [pruneStep]
    rw [if_pos (show (!FMap.isEmptyMap (FMap.node [(g, FMap.empty)]) &&
      !FMap.isIdOnly (FMap.node [(g, FMap.empty)]) &&
      isRelType (get_field_type s m f)) = true from by
        simp [hio, hft, isRelType,
          show FMap.isEmptyMap (FMap.node [(g, FMap.empty)]) = false from rfl])]
    simp only [hgm, Option.getD_some, hrow]
    rw [mapOpt_of_forall (pruneRow s (k + 1) tm (FMap.node [(g, FMap.empty)]))
      (fun r => [(g, renderDefault s tm g r)]) rs
      (fun r _ => pruneRow_single_leaf s k tm g r hndt hgd)]
    simp [assocSet]
  rw [pruneRow_succ]
  rw [if_neg (by simp [show FMap.isEmptyMap
    (FMap.node [(f, FMap.node [(g, FMap.empty)])]) = false from rfl])]
  simp only [FMap.keys, FMap.entries, List.map]
  rw [filter_mem_single _ f (defaultFields_nodup s m hndm) hfd]
  simp only [List.map, foldOpt, hstep]

/-- Filtering a list by membership in `[a]` keeps nothing when `a` is
absent from the list. -/
theorem filter_mem_single_nil (l : List String) (a : String) (ha : a ∉ l) :
    l.filter (fun x => decide (x ∈ ([a] : List String))) = [] := by
  rw [List.filter_eq_nil_iff]
  intro x hx
  simp only [List.mem_singleton, decide_eq_true_eq]
  intro hxa
  exact ha (hxa ▸ hx)

/-- Pruning with the one-leaf map `{g: {}}` when `g` is NOT one of the
serializer's default fields yields the empty record: the requested
sub-field is silently absent (its leaf sub-map `{}` attaches no
sub-serializer, and the default fields contribute nothing). -/
theorem pruneRow_empty_leaf (s : Schema) (k : Nat) (tm g : String) (r : Row)
    (hgd : g ∉ defaultFields s tm) :
    pruneRow s (k + 1) tm (FMap.node [(g, FMap.empty)]) r = some [] := by
  rw [pruneRow_succ]
  rw [if_neg (by simp [show FMap.isEmptyMap (FMap.node [(g, FMap.empty)]) =
    false from rfl])]
  simp only [FMap.keys, FMap.entries, List.map]
  rw [filter_mem_single_nil _ g hgd]
  rfl

/-- Pruning with the map `{f: {g: {}}}` for a `ManyToManyField` `f` and a
sub-field `g` that is not a default serializer field of the related model
(and not `id`) yields the sequence of nested records that are all EMPTY:
the sub-field was accepted by the fields compiler but is dropped by the
serializer. -/
theorem pruneRow_nested_empty (s : Schema) (k : Nat) (m f g tm : String)
    (row : Row) (rs : List Row)
    (hndm : (allFieldNames s m).Nodup)
    (hfd : f ∈ defaultFields s m)
    (hft : get_field_type s m f = some .manyToMany)
    (hgm : get_model s m f = some tm)
    (hgid : g ≠ "id")
    (hgd : g ∉ defaultFields s tm)
    (hrow : rowLookup row f = some (Cell.many rs)) :
    pruneRow s (k + 2) m (FMap.node [(f, FMap.node [(g, FMap.empty)])]) row =
      some [(f, OutVal.recordList (rs.map (fun _ => ([] : OutRec))))] := by
  have hio : FMap.isIdOnly (FMap.node [(g, FMap.empty)]) = false := by
    simp [FMap.isIdOnly, hgid]
  have hstep : pruneStep s m (pruneRow s (k + 1)) row
      [(f, renderDefault s m f row)] (f, FMap.node [(g, FMap.empty)]) =
      some [(f, OutVal.recordList (rs.map (fun _ => ([] : OutRec))))] := by
    simp only [pruneStep]
    rw [if_pos (show (!FMap.isEmptyMap (FMap.node [(g, FMap.empty)]) &&
      !FMap.isIdOnly (FMap.node [(g, FMap.empty)]) &&
      isRelType (get_field_type s m f)) = true from by
        simp [hio, hft, isRelType,
          show FMap.isEmptyMap (FMap.node [(g, FMap.empty)]) = false from rfl])]
    simp only [hgm, Option.getD_some, hrow]
    rw [mapOpt_of_forall (pruneRow s (k + 1) tm (FMap.node [(g, FMap.empty)]))
      (fun _ => ([] : OutRec)) rs
      (fun r _ => pruneRow_empty_leaf s k tm g r hgd)]
    simp [assocSet]
  rw [pruneRow_succ]
  rw [if_neg (by simp [show FMap.isEmptyMap
    (FMap.node [(f, FMap.node [(g, FMap.empty)])]) = false from rfl])]
  simp only [FMap.keys, FMap.entries, List.map]
  rw [filter_mem_single _ f (defaultFields_nodup s m hndm) hfd]
  simp only [List.map, foldOpt, hstep]

/-- Folding the `ALL` expansion step over a list of field names whose
members are well-behaved: the fold succeeds, leaves the error untouched,
keeps all existing keys, adds every name that is neither hidden nor a
disallowed `ManyToManyField`, and adds nothing else. -/
theorem all_fold_facts (s : Schema) (dds hide : List String) (k : Nat)
    (cm cr : String) :
    ∀ (names : List String),
      (∀ n ∈ names, pyStrip n = n ∧ pySplit n "." = [n] ∧ n ≠ "ALL" ∧
        is_field_in s cm n = true ∧
        (get_field_type s cm n = some .manyToMany →
          ∃ tm, get_model s cm n = some tm ∧ is_field_in s tm "id" = true ∧
            get_field_type s tm "id" ≠ some .manyToMany)) →
      ∀ (map : FMap) (st : FMState),
      ∃ map' st',
        foldOpt (allStep s dds hide (add_to_fields_map s dds hide (k + 2))
            cm cr) (map, st) names = some (map', st') ∧
        st'.error = st.error ∧
        (∀ x ∈ map.keys, x ∈ map'.keys) ∧
        (∀ n ∈ names,
          stripDots (pyReplace cr "__" "." ++ "." ++ n) ∉ hide →
          ¬ (get_field_type s cm n = some .manyToMany ∧
            accumPath cr n ∉ dds) →
          n ∈ map'.keys) ∧
        (∀ x ∈ map'.keys, x ∈ map.keys ∨ (x ∈ names ∧
          stripDots (pyReplace cr "__" "." ++ "." ++ x) ∉ hide ∧
          ¬ (get_field_type s cm x = some .manyToMany ∧
            accumPath cr x ∉ dds))) := by
  intro names
  induction names with
  | nil =>
    intro _ map st
    refine ⟨map, st, rfl, rfl, fun x hx => hx, ?_, fun x hx => Or.inl hx⟩
    intro n hn
    cases hn
  | cons n t ih =>
    intro hfacts map st
    obtain ⟨hstrip, hsplit, hALL, hfi, hm2mf⟩ := hfacts n (by simp)
    have hfactst := fun m hm => hfacts m (List.mem_cons_of_mem n hm)
    by_cases hhide : stripDots (pyReplace cr "__" "." ++ "." ++ n) ∈ hide
    · have hstep : allStep s dds hide (add_to_fields_map s dds hide (k + 2))
          cm cr (map, st) n = some (map, st) := by
        simp only [allStep]
        rw [if_pos hhide]
        rfl
      obtain ⟨map', st', hfold, herr, hmono, hincl, hbound⟩ :=
        ih hfactst map st
      refine ⟨map', st', ?_, herr, hmono, ?_, ?_⟩
      · simp only [foldOpt, hstep]
        exact hfold
      · intro m hm hmh hms
        rcases List.mem_cons.mp hm with rfl | hmt
        · exact absurd hhide hmh
        · exact hincl m hmt hmh hms
      · intro x hx
        rcases hbound x hx with h | ⟨hxt, hxh, hxs⟩
        · exact Or.inl h
        · exact Or.inr ⟨List.mem_cons_of_mem n hxt, hxh, hxs⟩
    · by_cases hskip : get_field_type s cm n = some .manyToMany ∧
          accumPath cr n ∉ dds
      · have hstep : allStep s dds hide (add_to_fields_map s dds hide (k + 2))
            cm cr (map, st) n = some (map, st) := by
          simp only [allStep]
          rw [if_neg hhide, if_pos hskip]
          rfl
        obtain ⟨map', st', hfold, herr, hmono, hincl, hbound⟩ :=
          ih hfactst map st
        refine ⟨map', st', ?_, herr, hmono, ?_, ?_⟩
        · simp only [foldOpt, hstep]
          exact hfold
        · intro m hm hmh hms
          rcases List.mem_cons.mp hm with rfl | hmt
          · exact absurd hskip hms
          · exact hincl m hmt hmh hms
        · intro x hx
          rcases hbound x hx with h | ⟨hxt, hxh, hxs⟩
          · exact Or.inl h
          · exact Or.inr ⟨List.mem_cons_of_mem n hxt, hxh, hxs⟩
      · have hstep0 : allStep s dds hide
            (add_to_fields_map s dds hide (k + 2)) cm cr (map, st) n =
            add_to_fields_map s dds hide (k + 2) cm map (pySplit n ".") cr
              st := by
          simp only [allStep]
          rw [if_neg hhide, if_neg hskip]
        rw [hsplit] at hstep0
        by_cases hm2m : get_field_type s cm n = some .manyToMany
        · have hdd : accumPath cr n ∈ dds := by
            by_contra hc
            exact hskip ⟨hm2m, hc⟩
          obtain ⟨tm, hgm, hidfi, hidm2m⟩ := hm2mf hm2m
          have hadd : add_to_fields_map s dds hide (k + 2) cm map [n] cr st =
              some ((insertAbsent map n).set n
                  (insertAbsent (((insertAbsent map n).get n).getD FMap.empty)
                    "id"),
                { st with prefetch_relateds :=
                  st.prefetch_relateds ++ [accumPath cr n] }) :=
            add_single_m2m s dds hide k cm n cr tm map st hstrip hALL hfi
              hm2m hgm hdd hidfi hidm2m
          obtain ⟨map', st', hfold, herr, hmono, hincl, hbound⟩ :=
            ih hfactst
              ((insertAbsent map n).set n
                (insertAbsent (((insertAbsent map n).get n).getD FMap.empty)
                  "id"))
              { st with prefetch_relateds :=
                st.prefetch_relateds ++ [accumPath cr n] }
          refine ⟨map', st', ?_, herr, ?_, ?_, ?_⟩
          · simp only [foldOpt, hstep0, hadd]
            exact hfold
          · intro x hx
            exact hmono x (FMap.mem_keys_set_of _ n _ x
              (mem_keys_insertAbsent_of map n x hx))
          · intro m hm hmh hms
            rcases List.mem_cons.mp hm with rfl | hmt
            · exact hmono m (FMap.mem_keys_set_self _ m _)
            · exact hincl m hmt hmh hms
          · intro x hx
            rcases hbound x hx with h | ⟨hxt, hxh, hxs⟩
            · rcases FMap.keys_set_subset _ n _ x h with h2 | rfl
              · rcases keys_insertAbsent_subset map n x h2 with h3 | rfl
                · exact Or.inl h3
                · exact Or.inr ⟨List.mem_cons_self _ _, hhide, hskip⟩
              · exact Or.inr ⟨List.mem_cons_self _ _, hhide, hskip⟩
            · exact Or.inr ⟨List.mem_cons_of_mem n hxt, hxh, hxs⟩
        · have hadd : add_to_fields_map s dds hide (k + 2) cm map [n] cr st =
              some (insertAbsent map n, st) :=
            add_single_plain s dds hide (k + 1) cm n cr map st hstrip hALL
              hfi hm2m
          obtain ⟨map', st', hfold, herr, hmono, hincl, hbound⟩ :=
            ih hfactst (insertAbsent map n) st
          refine ⟨map', st', ?_, herr, ?_, ?_, ?_⟩
          · simp only [foldOpt, hstep0, hadd]
            exact hfold
          · intro x hx
            exact hmono x (mem_keys_insertAbsent_of map n x hx)
          · intro m hm hmh hms
            rcases List.mem_cons.mp hm with rfl | hmt
            · exact hmono m (mem_keys_insertAbsent_self map m)
            · exact hincl m hmt hmh hms
          · intro x hx
            rcases hbound x hx with h | ⟨hxt, hxh, hxs⟩
            · rcases keys_insertAbsent_subset map n x h with h2 | rfl
              · exact Or.inl h2
              · exact Or.inr ⟨List.mem_cons_self _ _, hhide, hskip⟩
            · exact Or.inr ⟨List.mem_cons_of_mem n hxt, hxh, hxs⟩

/-- One-step unfolding of `add_to_fields_map` on the single segment `ALL`:
a plain equation so that rewriting never opens the recursive occurrence
inside `allStep`. -/
theorem add_to_fields_map_ALL (s : Schema) (dds hide : List String)
    (fuel : Nat) (cm cr : String) (map : FMap) (st : FMState) :
    add_to_fields_map s dds hide (fuel + 1) cm map ["ALL"] cr st =
      foldOpt (allStep s dds hide (add_to_fields_map s dds hide fuel) cm cr)
        (map, st) (allFieldNames s cm) := rfl

/-- C6: an `ALL` segment at any level (any current model `cm` and any
accumulated relation prefix `cr`), over a well-formed schema, expands
without error: the fields-map compiler succeeds, `self.error` is unchanged,
every field of the current model whose accumulated dotted name is not
hidden and which is not a `ManyToManyField` outside the validated drilldown
set ends up as a key of the resulting map, and every disallowed
`ManyToManyField` is silently skipped — it is never added as a key. -/
theorem C6_all_expansion (s : Schema) (dds hide : List String) (k : Nat)
    (cm cr : String) (map : FMap) (st : FMState)
    (hwf : wfSchema s = true) :
    ∃ map' st',
      add_to_fields_map s dds hide (k + 3) cm map ["ALL"] cr st =
        some (map', st') ∧
      st'.error = st.error ∧
      (∀ n ∈ allFieldNames s cm,
        stripDots (pyReplace cr "__" "." ++ "." ++ n) ∉ hide →
        ¬ (get_field_type s cm n = some .manyToMany ∧
          accumPath cr n ∉ dds) →
        n ∈ map'.keys) ∧
      (∀ n, get_field_type s cm n = some .manyToMany →
        accumPath cr n ∉ dds → n ∉ map.keys → n ∉ map'.keys) := by
  have hfacts : ∀ n ∈ allFieldNames s cm, pyStrip n = n ∧
      pySplit n "." = [n] ∧ n ≠ "ALL" ∧ is_field_in s cm n = true ∧
      (get_field_type s cm n = some .manyToMany →
        ∃ tm, get_model s cm n = some tm ∧ is_field_in s tm "id" = true ∧
          get_field_type s tm "id" ≠ some .manyToMany) := by
    intro n hn
    obtain ⟨d, hd, hdn⟩ := List.mem_map.mp hn
    have hwfd := wf_fieldsOf s hwf cm d hd
    obtain ⟨h1, h2, h3⟩ := wfField_name s d hwfd
    rw [hdn] at h1 h2 h3
    refine ⟨h2, h1, h3, by simpa [is_field_in] using hn, ?_⟩
    intro hm2m
    obtain ⟨d', hfind, hd'mem, _, hd'ft⟩ := get_field_type_inv s cm n _ hm2m
    have hwfd' := wf_fieldsOf s hwf cm d' hd'mem
    obtain ⟨tm, htgt, htm⟩ := wfField_target s d' hwfd'
      (by rw [hd'ft]; decide)
    have hgm : get_model s cm n = some tm := by
      rw [get_model_of_find s cm n d' hfind (by rw [hd'ft]; decide), htgt]
    obtain ⟨_, hidfi, hidft⟩ := wf_model_facts s hwf tm htm
    exact ⟨tm, hgm, hidfi, by rw [hidft]; decide⟩
  obtain ⟨map', st', hfold, herr, _, hincl, hbound⟩ :=
    all_fold_facts s dds hide k cm cr (allFieldNames s cm) hfacts map st
  refine ⟨map', st', ?_, herr, hincl, ?_⟩
  · exact (add_to_fields_map_ALL s dds hide (k + 2) cm cr map st).trans hfold
  · intro n hm2m hdd hnmap hnmap'
    rcases hbound n hnmap' with h | ⟨_, _, hns⟩
    · exact hnmap h
    · exact hns ⟨hm2m, hdd⟩

/-- C6: witness — the expansion theorem instantiated on the test schema's
invoice endpoint (its validated drilldowns and hidden field), at top level,
from the empty map and clean state. -/
theorem C6_witness :
    ∃ map' st',
      add_to_fields_map testSchema
          ["client__profile", "salesperson__profile", "items"]
          ["salesperson.commission_pct"] (5 + 3) "test_Invoice"
          FMap.empty ["ALL"] "" ⟨"", [], []⟩ = some (map', st') ∧
      st'.error = "" ∧
      (∀ n ∈ allFieldNames testSchema "test_Invoice",
        stripDots (pyReplace "" "__" "." ++ "." ++ n) ∉
          ["salesperson.commission_pct"] →
        ¬ (get_field_type testSchema "test_Invoice" n =
            some FieldType.manyToMany ∧
          accumPath "" n ∉ ["client__profile", "salesperson__profile",
            "items"]) →
        n ∈ map'.keys) ∧
      (∀ n, get_field_type testSchema "test_Invoice" n =
          some FieldType.manyToMany →
        accumPath "" n ∉ ["client__profile", "salesperson__profile",
          "items"] →
        n ∉ FMap.empty.keys → n ∉ map'.keys) :=
  C6_all_expansion testSchema
    ["client__profile", "salesperson__profile", "items"]
    ["salesperson.commission_pct"] 5 "test_Invoice" "" FMap.empty
    ⟨"", [], []⟩ (by decide)

/-- C7: counterexample. Requesting the to-many relation `items` WITH the
explicit sub-field `id` (`fields=items.id`) still yields the flat identifier
list `[1, 2]`, not a sequence of single-key records pruned to `{id}` as the
claim's sub-field clause demands: the defaulted sub-map `{id: {}}` and the
explicitly requested one are indistinguishable, and both degrade to flat
identifiers. -/
theorem C7_counterexample :
    runGet testSchema testConfig [("fields", "items.id")] (some [testRow])
      engAll 10 =
      some ⟨200, [[("items", OutVal.idList [Value.int 1, Value.int 2])]],
        some 1, none⟩ ∧
    OutVal.idList [Value.int 1, Value.int 2] ≠
      OutVal.recordList [[("id", OutVal.prim (Value.int 1))],
        [("id", OutVal.prim (Value.int 2))]] :=
  ⟨by rfl, fun h => OutVal.noConfusion h⟩

/-- C7 (corrected): for a `ManyToManyField` `f`, requesting `f` with no
sub-fields and requesting `f.id` both compile to the fields map
`{f: {id: {}}}`, which the serializer renders as a flat identifier list;
requesting `f` with a single sub-field `g ≠ id` compiles to `{f: {g: {}}}`,
which renders as a sequence of nested records containing exactly `g` when
`g` is one of the serializer's default fields, but as a sequence of EMPTY
records when it is not (e.g. a reverse relation: the sub-field is accepted
without error and silently dropped from the output). The original claim
fails both for the sub-field `id`, whose request is indistinguishable from
the defaulted map and degrades to flat identifiers, and for non-default
sub-fields, which are never pruned into the records. -/
theorem C7_amended (s : Schema) (dds hide : List String) (k : Nat)
    (model f g g' tm : String) (row : Row) (rs : List Row)
    (hstrip : pyStrip f = f) (hALL : f ≠ "ALL")
    (hfi : is_field_in s model f = true)
    (hft : get_field_type s model f = some .manyToMany)
    (hgm : get_model s model f = some tm)
    (hdd : accumPath "" f ∈ dds)
    (hidfi : is_field_in s tm "id" = true)
    (hidm2m : get_field_type s tm "id" ≠ some .manyToMany)
    (hndm : (allFieldNames s model).Nodup)
    (hndt : (allFieldNames s tm).Nodup)
    (hfd : f ∈ defaultFields s model) (hgd : g ∈ defaultFields s tm)
    (hgs : pyStrip g = g) (hgALL : g ≠ "ALL")
    (hgfi : is_field_in s tm g = true)
    (hgm2m : get_field_type s tm g ≠ some .manyToMany)
    (hgid : g ≠ "id")
    (hg's : pyStrip g' = g') (hg'ALL : g' ≠ "ALL")
    (hg'fi : is_field_in s tm g' = true)
    (hg'm2m : get_field_type s tm g' ≠ some .manyToMany)
    (hg'id : g' ≠ "id")
    (hg'nd : g' ∉ defaultFields s tm)
    (hsplit_f : pySplit f "." = [f])
    (hsplit_fid : pySplit (f ++ "." ++ "id") "." = [f, "id"])
    (hsplit_fg : pySplit (f ++ "." ++ g) "." = [f, g])
    (hsplit_fgr : pySplit (f ++ "." ++ g') "." = [f, g'])
    (hrow : rowLookup row f = some (Cell.many rs)) :
    create_fields_map s dds hide (k + 2) model [f] =
      some (FMap.node [(f, FMap.node [("id", FMap.empty)])],
        ⟨"", [], [accumPath "" f]⟩) ∧
    create_fields_map s dds hide (k + 2) model [f ++ "." ++ "id"] =
      some (FMap.node [(f, FMap.node [("id", FMap.empty)])],
        ⟨"", [], [accumPath "" f]⟩) ∧
    pruneRow s (k + 1) model (FMap.node [(f, FMap.node [("id", FMap.empty)])])
        row = some [(f, OutVal.idList (rs.map idOf))] ∧
    create_fields_map s dds hide (k + 2) model [f ++ "." ++ g] =
      some (FMap.node [(f, FMap.node [(g, FMap.empty)])],
        ⟨"", [], [accumPath "" f]⟩) ∧
    pruneRow s (k + 2) model (FMap.node [(f, FMap.node [(g, FMap.empty)])])
        row = some [(f, OutVal.recordList
          (rs.map (fun r => [(g, renderDefault s tm g r)])))] ∧
    create_fields_map s dds hide (k + 2) model [f ++ "." ++ g'] =
      some (FMap.node [(f, FMap.node [(g', FMap.empty)])],
        ⟨"", [], [accumPath "" f]⟩) ∧
    pruneRow s (k + 2) model (FMap.node [(f, FMap.node [(g', FMap.empty)])])
        row = some [(f, OutVal.recordList
          (rs.map (fun _ => ([] : OutRec))))] :=
  ⟨create_single_m2m s dds hide k model f f tm hsplit_f hstrip hALL hfi hft
      hgm hdd hidfi hidm2m,
   create_pair_m2m s dds hide k model (f ++ "." ++ "id") f "id" tm hsplit_fid
      hstrip hALL hfi hft hgm hdd rfl (by decide) hidfi hidm2m,
   pruneRow_flat_m2m s k model f row rs hndm hfd hft hrow,
   create_pair_m2m s dds hide k model (f ++ "." ++ g) f g tm hsplit_fg
      hstrip hALL hfi hft hgm hdd hgs hgALL hgfi hgm2m,
   pruneRow_nested_m2m s k model f g tm row rs hndm hndt hfd hgd hft hgm
      hgid hrow,
   create_pair_m2m s dds hide k model (f ++ "." ++ g') f g' tm hsplit_fgr
      hstrip hALL hfi hft hgm hdd hg's hg'ALL hg'fi hg'm2m,
   pruneRow_nested_empty s k model f g' tm row rs hndm hfd hft hgm
      hg'id hg'nd hrow⟩

/-- C7: witness — the amended theorem instantiated on the test schema's
invoice/items relation, with the default sub-field `price` (pruned into the
records) and the reverse-relation sub-field `invoice` (accepted but
dropped: the records come back empty), on the fixture row. -/
theorem C7_witness :
    create_fields_map testSchema ["client__profile", "salesperson__profile",
        "items"] [] (8 + 2) "test_Invoice" ["items"] =
      some (FMap.node [("items", FMap.node [("id", FMap.empty)])],
        ⟨"", [], [accumPath "" "items"]⟩) ∧
    create_fields_map testSchema ["client__profile", "salesperson__profile",
        "items"] [] (8 + 2) "test_Invoice" ["items" ++ "." ++ "id"] =
      some (FMap.node [("items", FMap.node [("id", FMap.empty)])],
        ⟨"", [], [accumPath "" "items"]⟩) ∧
    pruneRow testSchema (8 + 1) "test_Invoice"
        (FMap.node [("items", FMap.node [("id", FMap.empty)])]) testRow =
      some [("items", OutVal.idList
        ([Row.mk [("id", Cell.scalar (Value.int 1)),
                  ("description", Cell.scalar (Value.str "Tape")),
                  ("price", Cell.scalar (Value.str "2.20"))],
          Row.mk [("id", Cell.scalar (Value.int 2)),
                  ("description", Cell.scalar (Value.str "Dog bowl")),
                  ("price", Cell.scalar (Value.str "4.00"))]].map idOf))] ∧
    create_fields_map testSchema ["client__profile", "salesperson__profile",
        "items"] [] (8 + 2) "test_Invoice" ["items" ++ "." ++ "price"] =
      some (FMap.node [("items", FMap.node [("price", FMap.empty)])],
        ⟨"", [], [accumPath "" "items"]⟩) ∧
    pruneRow testSchema (8 + 2) "test_Invoice"
        (FMap.node [("items", FMap.node [("price", FMap.empty)])]) testRow =
      some [("items", OutVal.recordList
        (([Row.mk [("id", Cell.scalar (Value.int 1)),
                   ("description", Cell.scalar (Value.str "Tape")),
                   ("price", Cell.scalar (Value.str "2.20"))],
           Row.mk [("id", Cell.scalar (Value.int 2)),
                   ("description", Cell.scalar (Value.str "Dog bowl")),
                   ("price", Cell.scalar (Value.str "4.00"))]].map
          (fun r => [("price", renderDefault testSchema "test_Item" "price"
            r)]))))] ∧
    create_fields_map testSchema ["client__profile", "salesperson__profile",
        "items"] [] (8 + 2) "test_Invoice" ["items" ++ "." ++ "invoice"] =
      some (FMap.node [("items", FMap.node [("invoice", FMap.empty)])],
        ⟨"", [], [accumPath "" "items"]⟩) ∧
    pruneRow testSchema (8 + 2) "test_Invoice"
        (FMap.node [("items", FMap.node [("invoice", FMap.empty)])])
        testRow =
      some [("items", OutVal.recordList
        (([Row.mk [("id", Cell.scalar (Value.int 1)),
                   ("description", Cell.scalar (Value.str "Tape")),
                   ("price", Cell.scalar (Value.str "2.20"))],
           Row.mk [("id", Cell.scalar (Value.int 2)),
                   ("description", Cell.scalar (Value.str "Dog bowl")),
                   ("price", Cell.scalar (Value.str "4.00"))]].map
          (fun _ => ([] : OutRec)))))] :=
  C7_amended testSchema ["client__profile", "salesperson__profile", "items"]
    [] 8 "test_Invoice" "items" "price" "invoice" "test_Item" testRow
    [Row.mk [("id", Cell.scalar (Value.int 1)),
             ("description", Cell.scalar (Value.str "Tape")),
             ("price", Cell.scalar (Value.str "2.20"))],
     Row.mk [("id", Cell.scalar (Value.int 2)),
             ("description", Cell.scalar (Value.str "Dog bowl")),
             ("price", Cell.scalar (Value.str "4.00"))]]
    (by decide) (by decide) (by decide) (by decide) (by decide) (by decide)
    (by decide) (by decide) (by decide) (by decide) (by decide) (by decide)
    (by decide) (by decide) (by decide) (by decide) (by decide) (by decide)
    (by decide) (by decide) (by decide) (by decide) (by decide) (by decide)
    (by decide) (by decide) (by decide) (by rfl)

end Drilldown
